import Mathlib

/-!
Shallow embedding of `src/common/optimizer.py` (repository `ym3k/dl_from_scratch`).

Modelling choices, fixed throughout:

* A numpy tensor is a flat `List ℚ`; its shape is its length.  All numpy
  arithmetic in the source is elementwise over same-shaped operands, embedded
  with `List.zipWith` / `List.map`.  Exact rational arithmetic stands in for
  IEEE-754 `float64`.
* A Python `dict` (`params`, `grads`, and the lazily created state dicts) is an
  insertion-ordered association list `List (String × Tensor)`.  Reading a
  missing key raises `KeyError`; the embedding returns `Option` from `dget` and
  the per-key loop propagates the failure.
* A `for key in params.keys(): ...` loop whose body mutates dicts in place and
  may raise `KeyError` is `pyFor`: a fold whose `.error` result carries the
  state as mutated up to the point the exception escaped, exactly as the
  caller of the Python code would observe it.
* `np.sqrt` is an uninterpreted parameter `sq : ℚ → ℚ` of the updates that use
  it; every theorem below is proved for all `sq`, so nothing depends on its
  values.
* Each optimizer class is a structure holding its hyperparameters and its
  mutable attributes (`iter`, and the lazily materialized state dicts, `none`
  standing for Python `None`).  `update` returns the next instance state, the
  caller-visible `params` and `grads` dicts, and an `ok` flag that is `false`
  exactly when the Python code would have raised an exception out of the call.
-/

namespace DLOpt

/-- A dense numeric tensor, flattened; its shape is its length. -/
abbrev Tensor := List ℚ

/-- A Python dict from parameter key to tensor, in insertion order. -/
abbrev TDict := List (String × Tensor)

/-- `d[k]` read: the value at the first matching key, `none` = `KeyError`. -/
def dget : TDict → String → Option Tensor
  | [], _ => none
  | kv :: t, k => if kv.1 = k then some kv.2 else dget t k

/-- `d[k] = v` store to an existing key (in-place value replacement). -/
def dset : TDict → String → Tensor → TDict
  | [], _, _ => []
  | kv :: t, k, v => (if kv.1 = k then (k, v) else kv) :: dset t k v

/-- `d.keys()`. -/
def dkeys (d : TDict) : List String := d.map Prod.fst

/-- `np.zeros_like(t)`. -/
def zerosLike (t : Tensor) : Tensor := t.map (fun _ => 0)

/-- The dict built by the lazy-initialization loop
`for key, val in params.items(): state[key] = np.zeros_like(val)`. -/
def zerosDict (d : TDict) : TDict := d.map (fun kv => (kv.1, zerosLike kv.2))

/-- The lazy-initialization guard `if self.state is None: ...` shared by every
stateful variant: materialize zeros on the first call, reuse afterwards. -/
def lazyInit (st : Option TDict) (params : TDict) : TDict :=
  match st with
  | none => zerosDict params
  | some d => d

/-- A Python `for key in ks:` loop whose body mutates state in place and may
raise; `.error` carries the state at the point the exception escapes. -/
def pyFor {σ : Type} (body : σ → String → Except σ σ) : σ → List String → Except σ σ
  | s, [] => .ok s
  | s, k :: ks =>
    match body s k with
    | .ok s' => pyFor body s' ks
    | .error s' => .error s'

/-- The state observable after a possibly-raising computation. -/
def resSt {σ : Type} : Except σ σ → σ
  | .ok s => s
  | .error s => s

/-- Result of one `update` call: the optimizer instance afterwards, the two
caller-owned dicts afterwards, and whether the call returned normally. -/
structure UpdResult (I : Type) where
  inst : I
  params : TDict
  grads : TDict
  ok : Bool

/-! ### SGD -/

structure SGD where
  lr : ℚ

/-- `SGD.__init__` (default `lr=0.01`); no validation is performed. -/
def SGD.new (lr : ℚ) : SGD := ⟨lr⟩

structure SGDSt where
  params : TDict
  grads : TDict

/-- Loop body of `SGD.update`: `params[key] -= self.lr * grads[key]`. -/
def SGD.body (o : SGD) (s : SGDSt) (k : String) : Except SGDSt SGDSt :=
  match dget s.params k with
  | none => .error s
  | some pk =>
    match dget s.grads k with
    | none => .error s
    | some gk =>
      .ok { s with params := dset s.params k (List.zipWith (fun p g => p - o.lr * g) pk gk) }

/-- `SGD.update(params, grads)`. -/
def SGD.update (o : SGD) (params grads : TDict) : UpdResult SGD :=
  match pyFor (SGD.body o) ⟨params, grads⟩ (dkeys params) with
  | .ok s => ⟨o, s.params, s.grads, true⟩
  | .error s => ⟨o, s.params, s.grads, false⟩

/-! ### Momentum -/

structure Momentum where
  lr : ℚ
  momentum : ℚ
  v : Option TDict

/-- `Momentum.__init__` (defaults `lr=0.01, momentum=0.9`); `self.v = None`. -/
def Momentum.new (lr momentum : ℚ) : Momentum := ⟨lr, momentum, none⟩

structure MomSt where
  params : TDict
  grads : TDict
  v : TDict

/-- Loop body of `Momentum.update`:
`self.v[key] = self.momentum*self.v[key] - self.lr*grads[key]` then
`params[key] += self.v[key]`.  Reads occur in source order, so a missing
gradient key raises after `self.v[key]` was read but before it is written. -/
def Momentum.body (lr momentum : ℚ) (s : MomSt) (k : String) : Except MomSt MomSt :=
  match dget s.v k with
  | none => .error s
  | some vk =>
    match dget s.grads k with
    | none => .error s
    | some gk =>
      let vk1 := List.zipWith (fun x g => momentum * x - lr * g) vk gk
      let s1 : MomSt := { s with v := dset s.v k vk1 }
      match dget s1.params k with
      | none => .error s1
      | some pk =>
        .ok { s1 with params := dset s1.params k (List.zipWith (fun p x => p + x) pk vk1) }

/-- `Momentum.update(params, grads)`. -/
def Momentum.update (o : Momentum) (params grads : TDict) : UpdResult Momentum :=
  let v0 := lazyInit o.v params
  match pyFor (Momentum.body o.lr o.momentum) ⟨params, grads, v0⟩ (dkeys params) with
  | .ok s => ⟨{ o with v := some s.v }, s.params, s.grads, true⟩
  | .error s => ⟨{ o with v := some s.v }, s.params, s.grads, false⟩

/-! ### Nesterov -/

structure Nesterov where
  lr : ℚ
  momentum : ℚ
  v : Option TDict

/-- `Nesterov.__init__` (defaults `lr=0.01, momentum=0.9`); `self.v = None`. -/
def Nesterov.new (lr momentum : ℚ) : Nesterov := ⟨lr, momentum, none⟩

/-- Loop body of `Nesterov.update`:
`self.v[key] *= self.momentum`; `self.v[key] -= self.lr * grads[key]`;
`params[key] += self.momentum * self.momentum * self.v[key]`;
`params[key] -= (1 + self.momentum) * self.lr * grads[key]`. -/
def Nesterov.body (lr momentum : ℚ) (s : MomSt) (k : String) : Except MomSt MomSt :=
  match dget s.v k with
  | none => .error s
  | some vk =>
    let vk1 := vk.map (fun x => momentum * x)
    let s1 : MomSt := { s with v := dset s.v k vk1 }
    match dget s1.grads k with
    | none => .error s1
    | some gk =>
      let vk2 := List.zipWith (fun x g => x - lr * g) vk1 gk
      let s2 : MomSt := { s1 with v := dset s1.v k vk2 }
      match dget s2.params k with
      | none => .error s2
      | some pk =>
        let pk1 := List.zipWith (fun p x => p + momentum * momentum * x) pk vk2
        let s3 : MomSt := { s2 with params := dset s2.params k pk1 }
        let pk2 := List.zipWith (fun p g => p - (1 + momentum) * lr * g) pk1 gk
        .ok { s3 with params := dset s3.params k pk2 }

/-- `Nesterov.update(params, grads)`. -/
def Nesterov.update (o : Nesterov) (params grads : TDict) : UpdResult Nesterov :=
  let v0 := lazyInit o.v params
  match pyFor (Nesterov.body o.lr o.momentum) ⟨params, grads, v0⟩ (dkeys params) with
  | .ok s => ⟨{ o with v := some s.v }, s.params, s.grads, true⟩
  | .error s => ⟨{ o with v := some s.v }, s.params, s.grads, false⟩

/-! ### AdaGrad -/

structure AdaGrad where
  lr : ℚ
  h : Option TDict

/-- `AdaGrad.__init__` (default `lr=0.01`); `self.h = None`. -/
def AdaGrad.new (lr : ℚ) : AdaGrad := ⟨lr, none⟩

structure AdaSt where
  params : TDict
  grads : TDict
  h : TDict

/-- Loop body of `AdaGrad.update`:
`self.h[key] += grads[key] * grads[key]` then
`params[key] -= self.lr * grads[key] / (np.sqrt(self.h[key]) + 1e-7)`. -/
def AdaGrad.body (sq : ℚ → ℚ) (lr : ℚ) (s : AdaSt) (k : String) : Except AdaSt AdaSt :=
  match dget s.h k with
  | none => .error s
  | some hk =>
    match dget s.grads k with
    | none => .error s
    | some gk =>
      let hk1 := List.zipWith (fun x g => x + g * g) hk gk
      let s1 : AdaSt := { s with h := dset s.h k hk1 }
      match dget s1.params k with
      | none => .error s1
      | some pk =>
        let pk1 := List.zipWith (fun p gh => p - lr * gh.1 / (sq gh.2 + 1 / 10000000)) pk
          (gk.zip hk1)
        .ok { s1 with params := dset s1.params k pk1 }

/-- `AdaGrad.update(params, grads)`; `sq` stands for `np.sqrt`. -/
def AdaGrad.update (sq : ℚ → ℚ) (o : AdaGrad) (params grads : TDict) : UpdResult AdaGrad :=
  let h0 := lazyInit o.h params
  match pyFor (AdaGrad.body sq o.lr) ⟨params, grads, h0⟩ (dkeys params) with
  | .ok s => ⟨{ o with h := some s.h }, s.params, s.grads, true⟩
  | .error s => ⟨{ o with h := some s.h }, s.params, s.grads, false⟩

/-! ### RMSprop -/

structure RMSprop where
  lr : ℚ
  decay_rate : ℚ
  h : Option TDict

/-- `RMSprop.__init__` (defaults `lr=0.001, decay_rate=0.99`); `self.h = None`. -/
def RMSprop.new (lr decay_rate : ℚ) : RMSprop := ⟨lr, decay_rate, none⟩

/-- Loop body of `RMSprop.update`:
`self.h[key] *= self.decay_rate`;
`self.h[key] += (1 - self.decay_rate) * grads[key] * grads[key]`;
`params[key] -= self.lr * grads[key] / (np.sqrt(self.h[key]) + 1e-7)`. -/
def RMSprop.body (sq : ℚ → ℚ) (lr decay_rate : ℚ) (s : AdaSt) (k : String) :
    Except AdaSt AdaSt :=
  match dget s.h k with
  | none => .error s
  | some hk =>
    let hk1 := hk.map (fun x => decay_rate * x)
    let s1 : AdaSt := { s with h := dset s.h k hk1 }
    match dget s1.grads k with
    | none => .error s1
    | some gk =>
      let hk2 := List.zipWith (fun x g => x + (1 - decay_rate) * g * g) hk1 gk
      let s2 : AdaSt := { s1 with h := dset s1.h k hk2 }
      match dget s2.params k with
      | none => .error s2
      | some pk =>
        let pk1 := List.zipWith (fun p gh => p - lr * gh.1 / (sq gh.2 + 1 / 10000000)) pk
          (gk.zip hk2)
        .ok { s2 with params := dset s2.params k pk1 }

/-- `RMSprop.update(params, grads)`; `sq` stands for `np.sqrt`. -/
def RMSprop.update (sq : ℚ → ℚ) (o : RMSprop) (params grads : TDict) : UpdResult RMSprop :=
  let h0 := lazyInit o.h params
  match pyFor (RMSprop.body sq o.lr o.decay_rate) ⟨params, grads, h0⟩ (dkeys params) with
  | .ok s => ⟨{ o with h := some s.h }, s.params, s.grads, true⟩
  | .error s => ⟨{ o with h := some s.h }, s.params, s.grads, false⟩

/-! ### Adam -/

structure Adam where
  lr : ℚ
  beta1 : ℚ
  beta2 : ℚ
  iter : ℕ
  /-- `self.m` and `self.v`; the source materializes both together under the
  single guard `if self.m is None`, so they are modelled as one option. -/
  mv : Option (TDict × TDict)

/-- `Adam.__init__` (defaults `lr=0.001, beta1=0.9, beta2=0.999`);
`self.iter = 0`, `self.m = None`, `self.v = None`. -/
def Adam.new (lr beta1 beta2 : ℚ) : Adam := ⟨lr, beta1, beta2, 0, none⟩

structure AdamSt where
  params : TDict
  grads : TDict
  m : TDict
  v : TDict

/-- Loop body of `Adam.update`:
`self.m[key] += (1 - self.beta1) * (grads[key] - self.m[key])`;
`self.v[key] += (1 - self.beta2) * (grads[key]**2 - self.v[key])`;
`params[key] -= lr_t * self.m[key] / (np.sqrt(self.v[key]) + 1e-7)`. -/
def Adam.body (sq : ℚ → ℚ) (lrt beta1 beta2 : ℚ) (s : AdamSt) (k : String) :
    Except AdamSt AdamSt :=
  match dget s.m k with
  | none => .error s
  | some mk0 =>
    match dget s.grads k with
    | none => .error s
    | some gk =>
      let mk1 := List.zipWith (fun m g => m + (1 - beta1) * (g - m)) mk0 gk
      let s1 : AdamSt := { s with m := dset s.m k mk1 }
      match dget s1.v k with
      | none => .error s1
      | some vk =>
        let vk1 := List.zipWith (fun v g => v + (1 - beta2) * (g ^ 2 - v)) vk gk
        let s2 : AdamSt := { s1 with v := dset s1.v k vk1 }
        match dget s2.params k with
        | none => .error s2
        | some pk =>
          let pk1 := List.zipWith (fun p mv => p - lrt * mv.1 / (sq mv.2 + 1 / 10000000)) pk
            (mk1.zip vk1)
          .ok { s2 with params := dset s2.params k pk1 }

/-- `Adam.update(params, grads)`; `sq` stands for `np.sqrt`.
`self.iter += 1` and `lr_t = self.lr * np.sqrt(1.0 - self.beta2**self.iter) /
(1.0 - self.beta1**self.iter)` happen once per call, before the loop. -/
def Adam.update (sq : ℚ → ℚ) (o : Adam) (params grads : TDict) : UpdResult Adam :=
  let m0 := lazyInit (o.mv.map Prod.fst) params
  let v0 := lazyInit (o.mv.map Prod.snd) params
  let iter1 := o.iter + 1
  let lrt := o.lr * sq (1 - o.beta2 ^ iter1) / (1 - o.beta1 ^ iter1)
  match pyFor (Adam.body sq lrt o.beta1 o.beta2) ⟨params, grads, m0, v0⟩ (dkeys params) with
  | .ok s => ⟨{ o with iter := iter1, mv := some (s.m, s.v) }, s.params, s.grads, true⟩
  | .error s => ⟨{ o with iter := iter1, mv := some (s.m, s.v) }, s.params, s.grads, false⟩

/-! ### SDprop -/

structure SDprop where
  lr : ℚ
  gamma : ℚ
  /-- `self.bs = bias_correction`. -/
  bs : Bool
  /-- `self.m` and `self.c`, materialized together under `if self.m is None`. -/
  mc : Option (TDict × TDict)
  iter : ℕ

/-- `SDprop.__init__` (defaults `lr=0.001, gamma=0.99, bias_correction=True`);
`self.m = None`, `self.c = None`, `self.iter = 0`. -/
def SDprop.new (lr gamma : ℚ) (bias_correction : Bool) : SDprop :=
  ⟨lr, gamma, bias_correction, none, 0⟩

structure SDSt where
  params : TDict
  grads : TDict
  m : TDict
  c : TDict

/-- Loop body of `SDprop.update`:
`self.c[key] *= self.gamma`;
`self.c[key] += self.gamma * (1 - self.gamma) * (grads[key] - self.m[key])**2`
(reading the pre-update `self.m[key]`); then
`self.m[key] *= self.gamma`; `self.m[key] += (1 - self.gamma) * grads[key]`;
finally `params[key] -= step * grads[key] / (np.sqrt(self.c[key]) + 1e-8)`
where `step` is `lr_t` when `self.bs is True` and `self.lr` otherwise. -/
def SDprop.body (sq : ℚ → ℚ) (step gamma : ℚ) (s : SDSt) (k : String) : Except SDSt SDSt :=
  match dget s.c k with
  | none => .error s
  | some ck =>
    let ck1 := ck.map (fun x => gamma * x)
    let s1 : SDSt := { s with c := dset s.c k ck1 }
    match dget s1.grads k with
    | none => .error s1
    | some gk =>
      match dget s1.m k with
      | none => .error s1
      | some mk0 =>
        let ck2 := List.zipWith (fun x gm => x + gamma * (1 - gamma) * (gm.1 - gm.2) ^ 2) ck1
          (gk.zip mk0)
        let s2 : SDSt := { s1 with c := dset s1.c k ck2 }
        let mk1 := mk0.map (fun x => gamma * x)
        let mk2 := List.zipWith (fun x g => x + (1 - gamma) * g) mk1 gk
        let s3 : SDSt := { s2 with m := dset s2.m k mk2 }
        match dget s3.params k with
        | none => .error s3
        | some pk =>
          let pk1 := List.zipWith (fun p gc => p - step * gc.1 / (sq gc.2 + 1 / 100000000)) pk
            (gk.zip ck2)
          .ok { s3 with params := dset s3.params k pk1 }

/-- `SDprop.update(params, grads)`; `sq` stands for `np.sqrt`.
Only when `self.bs is True` does the call run `self.iter += 1` and
`lr_t = self.lr * np.sqrt(1.0 - self.gamma**self.iter)`; without bias
correction the per-key step uses plain `self.lr` and `iter` is untouched. -/
def SDprop.update (sq : ℚ → ℚ) (o : SDprop) (params grads : TDict) : UpdResult SDprop :=
  let m0 := lazyInit (o.mc.map Prod.fst) params
  let c0 := lazyInit (o.mc.map Prod.snd) params
  let iter1 := if o.bs then o.iter + 1 else o.iter
  let step := if o.bs then o.lr * sq (1 - o.gamma ^ iter1) else o.lr
  match pyFor (SDprop.body sq step o.gamma) ⟨params, grads, m0, c0⟩ (dkeys params) with
  | .ok s => ⟨{ o with iter := iter1, mc := some (s.m, s.c) }, s.params, s.grads, true⟩
  | .error s => ⟨{ o with iter := iter1, mc := some (s.m, s.c) }, s.params, s.grads, false⟩

/-! ### Adastand -/

structure Adastand where
  lr : ℚ
  beta1 : ℚ
  beta2 : ℚ
  epsilon : ℚ
  iter : ℕ
  /-- `self.m` and `self.v`, materialized together under `if self.m is None`. -/
  mv : Option (TDict × TDict)

/-- `Adastand.__init__` (defaults `lr=0.001, beta1=0.7, beta2=0.99,
epsilon=1e-7`); `self.iter = 0`, `self.m = None`, `self.v = None`. -/
def Adastand.new (lr beta1 beta2 epsilon : ℚ) : Adastand :=
  ⟨lr, beta1, beta2, epsilon, 0, none⟩

/-- Loop body of `Adastand.update`:
`self.v[key] += (1 - self.beta2) * (self.beta2 * (grads[key] - self.m[key])**2 - self.v[key])`
(reading the pre-update `self.m[key]`);
`self.m[key] += (1 - self.beta1) * (grads[key] - 2 * self.m[key])`;
`params[key] -= lr_t * self.m[key] / (np.sqrt(self.v[key]) + self.epsilon)`. -/
def Adastand.body (sq : ℚ → ℚ) (lrt beta1 beta2 eps : ℚ) (s : AdamSt) (k : String) :
    Except AdamSt AdamSt :=
  match dget s.v k with
  | none => .error s
  | some vk =>
    match dget s.grads k with
    | none => .error s
    | some gk =>
      match dget s.m k with
      | none => .error s
      | some mk0 =>
        let vk1 := List.zipWith (fun v gm => v + (1 - beta2) * (beta2 * (gm.1 - gm.2) ^ 2 - v))
          vk (gk.zip mk0)
        let s1 : AdamSt := { s with v := dset s.v k vk1 }
        let mk1 := List.zipWith (fun m g => m + (1 - beta1) * (g - 2 * m)) mk0 gk
        let s2 : AdamSt := { s1 with m := dset s1.m k mk1 }
        match dget s2.params k with
        | none => .error s2
        | some pk =>
          let pk1 := List.zipWith (fun p mv => p - lrt * mv.1 / (sq mv.2 + eps)) pk
            (mk1.zip vk1)
          .ok { s2 with params := dset s2.params k pk1 }

/-- `Adastand.update(params, grads)`; `sq` stands for `np.sqrt`.
`self.iter += 1` and `lr_t = self.lr * np.sqrt(1.0 - self.beta2**self.iter) /
(1.0 - self.beta1**self.iter)` happen once per call, before the loop. -/
def Adastand.update (sq : ℚ → ℚ) (o : Adastand) (params grads : TDict) : UpdResult Adastand :=
  let m0 := lazyInit (o.mv.map Prod.fst) params
  let v0 := lazyInit (o.mv.map Prod.snd) params
  let iter1 := o.iter + 1
  let lrt := o.lr * sq (1 - o.beta2 ^ iter1) / (1 - o.beta1 ^ iter1)
  match pyFor (Adastand.body sq lrt o.beta1 o.beta2 o.epsilon) ⟨params, grads, m0, v0⟩
      (dkeys params) with
  | .ok s => ⟨{ o with iter := iter1, mv := some (s.m, s.v) }, s.params, s.grads, true⟩
  | .error s => ⟨{ o with iter := iter1, mv := some (s.m, s.v) }, s.params, s.grads, false⟩

/-! ### Multi-step trajectories -/

/-- Repeated `update` calls on one `SGD` instance, one gradient dict per step. -/
def SGD.run (o : SGD) (p : TDict) : List TDict → SGD × TDict
  | [] => (o, p)
  | g :: gs =>
    let r := SGD.update o p g
    SGD.run r.inst r.params gs

/-- Repeated `update` calls on one `Momentum` instance. -/
def Momentum.run (o : Momentum) (p : TDict) : List TDict → Momentum × TDict
  | [] => (o, p)
  | g :: gs =>
    let r := Momentum.update o p g
    Momentum.run r.inst r.params gs

/-- Repeated `update` calls on one `Nesterov` instance. -/
def Nesterov.run (o : Nesterov) (p : TDict) : List TDict → Nesterov × TDict
  | [] => (o, p)
  | g :: gs =>
    let r := Nesterov.update o p g
    Nesterov.run r.inst r.params gs

/-- Repeated `update` calls on one `AdaGrad` instance. -/
def AdaGrad.run (sq : ℚ → ℚ) (o : AdaGrad) (p : TDict) : List TDict → AdaGrad × TDict
  | [] => (o, p)
  | g :: gs =>
    let r := AdaGrad.update sq o p g
    AdaGrad.run sq r.inst r.params gs

/-- Repeated `update` calls on one `RMSprop` instance. -/
def RMSprop.run (sq : ℚ → ℚ) (o : RMSprop) (p : TDict) : List TDict → RMSprop × TDict
  | [] => (o, p)
  | g :: gs =>
    let r := RMSprop.update sq o p g
    RMSprop.run sq r.inst r.params gs

/-- Repeated `update` calls on one `Adam` instance. -/
def Adam.run (sq : ℚ → ℚ) (o : Adam) (p : TDict) : List TDict → Adam × TDict
  | [] => (o, p)
  | g :: gs =>
    let r := Adam.update sq o p g
    Adam.run sq r.inst r.params gs

/-- Repeated `update` calls on one `SDprop` instance. -/
def SDprop.run (sq : ℚ → ℚ) (o : SDprop) (p : TDict) : List TDict → SDprop × TDict
  | [] => (o, p)
  | g :: gs =>
    let r := SDprop.update sq o p g
    SDprop.run sq r.inst r.params gs

/-- Repeated `update` calls on one `Adastand` instance. -/
def Adastand.run (sq : ℚ → ℚ) (o : Adastand) (p : TDict) : List TDict → Adastand × TDict
  | [] => (o, p)
  | g :: gs =>
    let r := Adastand.update sq o p g
    Adastand.run sq r.inst r.params gs

/-! ### Allocation-aware model of the per-key state statements

The value-level embedding above cannot distinguish "mutate the existing
array in place" from "rebind the dict slot to a freshly allocated array".
To settle that distinction we pair each numpy array with an allocation
identity.  The CPython/numpy semantics being modelled:

* a binary operation on arrays (`*`, `-`, `+`, `**`) allocates a fresh
  result array;
* an augmented assignment on a subscripted slot, `d[k] += x`, executes
  `d[k] = d[k].__iadd__(x)`; `ndarray.__iadd__` writes the existing buffer
  in place and returns the same object, so the slot keeps holding the same
  array (RHS temporaries are not state tensors and are dropped);
* a plain assignment `d[k] = expr` rebinds the slot to the freshly
  allocated result of `expr`; the previously stored array is not written.

Each `...Step` function below embeds exactly the statements of the source
that update one variant's state tensor for one key, with the same value
recurrence (verbatim the lambdas of the corresponding `body`) plus the
resulting allocation identity. -/

/-- A numpy array together with its allocation identity. -/
structure NpArray where
  aid : ℕ
  data : Tensor

/-- Momentum, `self.v[key] = self.momentum*self.v[key] - self.lr*grads[key]`:
a *plain* assignment.  The RHS is evaluated into freshly allocated arrays and
the slot is rebound to the final fresh array (`fresh` is the allocator's next
identity, distinct from every live array's); the old velocity array is never
written. -/
def Momentum.vStep (lr momentum : ℚ) (v : NpArray) (g : Tensor) (fresh : ℕ) : NpArray :=
  ⟨fresh, List.zipWith (fun x y => momentum * x - lr * y) v.data g⟩

/-- Nesterov, `self.v[key] *= self.momentum` then
`self.v[key] -= self.lr * grads[key]`: augmented assignments, in place. -/
def Nesterov.vStep (lr momentum : ℚ) (v : NpArray) (g : Tensor) : NpArray :=
  ⟨v.aid, List.zipWith (fun x y => x - lr * y) (v.data.map (fun x => momentum * x)) g⟩

/-- AdaGrad, `self.h[key] += grads[key] * grads[key]`: augmented, in place. -/
def AdaGrad.hStep (h : NpArray) (g : Tensor) : NpArray :=
  ⟨h.aid, List.zipWith (fun x y => x + y * y) h.data g⟩

/-- RMSprop, `self.h[key] *= self.decay_rate` then
`self.h[key] += (1 - self.decay_rate) * grads[key] * grads[key]`:
augmented assignments, in place. -/
def RMSprop.hStep (decay_rate : ℚ) (h : NpArray) (g : Tensor) : NpArray :=
  ⟨h.aid, List.zipWith (fun x y => x + (1 - decay_rate) * y * y)
    (h.data.map (fun x => decay_rate * x)) g⟩

/-- Adam, `self.m[key] += (1 - self.beta1) * (grads[key] - self.m[key])`:
augmented, in place. -/
def Adam.mStep (beta1 : ℚ) (m : NpArray) (g : Tensor) : NpArray :=
  ⟨m.aid, List.zipWith (fun x y => x + (1 - beta1) * (y - x)) m.data g⟩

/-- Adam, `self.v[key] += (1 - self.beta2) * (grads[key]**2 - self.v[key])`:
augmented, in place. -/
def Adam.vStep (beta2 : ℚ) (v : NpArray) (g : Tensor) : NpArray :=
  ⟨v.aid, List.zipWith (fun x y => x + (1 - beta2) * (y ^ 2 - x)) v.data g⟩

/-- SDprop, `self.c[key] *= self.gamma` then
`self.c[key] += self.gamma * (1 - self.gamma) * (grads[key] - self.m[key])**2`
(reading the pre-update mean values `mdata`): augmented, in place. -/
def SDprop.cStep (gamma : ℚ) (c : NpArray) (g mdata : Tensor) : NpArray :=
  ⟨c.aid, List.zipWith (fun x gm => x + gamma * (1 - gamma) * (gm.1 - gm.2) ^ 2)
    (c.data.map (fun x => gamma * x)) (g.zip mdata)⟩

/-- SDprop, `self.m[key] *= self.gamma` then
`self.m[key] += (1 - self.gamma) * grads[key]`: augmented, in place. -/
def SDprop.mStep (gamma : ℚ) (m : NpArray) (g : Tensor) : NpArray :=
  ⟨m.aid, List.zipWith (fun x y => x + (1 - gamma) * y)
    (m.data.map (fun x => gamma * x)) g⟩

/-- Adastand,
`self.v[key] += (1 - self.beta2) * (self.beta2 * (grads[key] - self.m[key])**2 - self.v[key])`
(reading the pre-update mean values `mdata`): augmented, in place. -/
def Adastand.vStep (beta2 : ℚ) (v : NpArray) (g mdata : Tensor) : NpArray :=
  ⟨v.aid, List.zipWith (fun x gm => x + (1 - beta2) * (beta2 * (gm.1 - gm.2) ^ 2 - x))
    v.data (g.zip mdata)⟩

/-- Adastand, `self.m[key] += (1 - self.beta1) * (grads[key] - 2 * self.m[key])`:
augmented, in place. -/
def Adastand.mStep (beta1 : ℚ) (m : NpArray) (g : Tensor) : NpArray :=
  ⟨m.aid, List.zipWith (fun x y => x + (1 - beta1) * (y - 2 * x)) m.data g⟩

/-! ### Basic dictionary and zero-tensor lemmas -/

theorem dget_eq_some_of_mem_dkeys {d : TDict} {k : String} (h : k ∈ dkeys d) :
    ∃ t, dget d k = some t := by
  induction d with
  | nil => simp [dkeys] at h
  | cons kv t ih =>
    by_cases hk : kv.1 = k
    · exact ⟨kv.2, by simp [dget, hk]⟩
    · simp only [dkeys, List.map_cons, List.mem_cons] at h
      rcases h with h | h
      · exact absurd h.symm hk
      · obtain ⟨u, hu⟩ := ih h
        exact ⟨u, by simp [dget, hk, hu]⟩

theorem dkeys_dset (d : TDict) (k : String) (v : Tensor) : dkeys (dset d k v) = dkeys d := by
  induction d with
  | nil => rfl
  | cons kv t ih =>
    by_cases hk : kv.1 = k
    · simp only [dset, if_pos hk, dkeys, List.map_cons]
      simpa [dkeys, hk] using ih
    · simp only [dset, if_neg hk, dkeys, List.map_cons]
      simpa [dkeys] using ih

theorem dset_of_not_mem {d : TDict} {k : String} (v : Tensor) (h : k ∉ dkeys d) :
    dset d k v = d := by
  induction d with
  | nil => rfl
  | cons kv t ih =>
    simp only [dkeys, List.map_cons, List.mem_cons, not_or] at h
    have hk : ¬kv.1 = k := fun hh => h.1 hh.symm
    simp only [dset, if_neg hk]
    exact congrArg _ (ih h.2)

theorem dset_dget_self {d : TDict} {k : String} {v : Tensor}
    (hnd : (dkeys d).Nodup) (h : dget d k = some v) : dset d k v = d := by
  induction d with
  | nil => rfl
  | cons kv t ih =>
    simp only [dkeys, List.map_cons, List.nodup_cons] at hnd
    by_cases hk : kv.1 = k
    · simp only [dget, if_pos hk] at h
      obtain rfl : kv.2 = v := by injection h
      have hkt : k ∉ dkeys t := by
        intro hc
        exact hnd.1 (by simpa [dkeys, hk] using hc)
      simp only [dset, if_pos hk, dset_of_not_mem _ hkt]
      rw [← hk]
    · simp only [dget, if_neg hk] at h
      simp only [dset, if_neg hk]
      exact congrArg _ (ih hnd.2 h)

theorem dget_zerosDict (d : TDict) (k : String) :
    dget (zerosDict d) k = (dget d k).map zerosLike := by
  induction d with
  | nil => rfl
  | cons kv t ih =>
    by_cases hk : kv.1 = k
    · simp [zerosDict, dget, hk]
    · simp only [zerosDict, List.map_cons, dget, if_neg hk]
      simpa [zerosDict] using ih

theorem dkeys_zerosDict (d : TDict) : dkeys (zerosDict d) = dkeys d := by
  simp [dkeys, zerosDict, List.map_map]

theorem zerosLike_length (t : Tensor) : (zerosLike t).length = t.length := by
  simp [zerosLike]

theorem eq_zero_of_mem_zerosLike {t : Tensor} {x : ℚ} (h : x ∈ zerosLike t) : x = 0 := by
  simp only [zerosLike, List.mem_map] at h
  obtain ⟨_, _, rfl⟩ := h
  rfl

theorem zipWith_zerosLike_right (f : ℚ → ℚ → ℚ) (hf : ∀ x, f x 0 = x) (t : Tensor) :
    List.zipWith f t (zerosLike t) = t := by
  induction t with
  | nil => rfl
  | cons a t ih =>
    simp only [zerosLike, List.map_cons, List.zipWith_cons_cons, hf]
    simp only [zerosLike] at ih
    rw [ih]

theorem zipWith_zeros_zeros (f : ℚ → ℚ → ℚ) (hf : f 0 0 = 0) (t : Tensor) :
    List.zipWith f (zerosLike t) (zerosLike t) = zerosLike t := by
  induction t with
  | nil => rfl
  | cons a t ih =>
    simp only [zerosLike, List.map_cons, List.zipWith_cons_cons, hf]
    simp only [zerosLike] at ih
    rw [ih]

theorem map_zerosLike (g : ℚ → ℚ) (hg : g 0 = 0) (t : Tensor) :
    (zerosLike t).map g = zerosLike t := by
  induction t with
  | nil => rfl
  | cons a t ih =>
    simp only [zerosLike, List.map_cons, hg]
    simp only [zerosLike] at ih
    rw [ih]

theorem zipWith_zip_zeros (f : ℚ → ℚ × ℚ → ℚ) (hf : ∀ x, f x (0, 0) = x) (t : Tensor) :
    List.zipWith f t ((zerosLike t).zip (zerosLike t)) = t := by
  induction t with
  | nil => rfl
  | cons a t ih =>
    simp only [zerosLike, List.map_cons, List.zip_cons_cons, List.zipWith_cons_cons, hf]
    simp only [zerosLike] at ih
    rw [ih]

theorem zipWith_zeros_zip_zeros (f : ℚ → ℚ × ℚ → ℚ) (hf : f 0 (0, 0) = 0) (t : Tensor) :
    List.zipWith f (zerosLike t) ((zerosLike t).zip (zerosLike t)) = zerosLike t := by
  induction t with
  | nil => rfl
  | cons a t ih =>
    simp only [zerosLike, List.map_cons, List.zip_cons_cons, List.zipWith_cons_cons, hf]
    simp only [zerosLike] at ih
    rw [ih]

/-! ### C3: SDprop covariance update reads the pre-update mean -/

/-- **C3.** For every key (shown for a generic single-entry state at key `k`
with arbitrary scalar contents), `SDprop`'s loop body first updates the
covariance accumulator to `γ*c + γ*(1-γ)*(grad - m)²` using the mean `m`
from *before* this step's mean update, and only then updates the mean to
`γ*m + (1-γ)*grad`; the parameter step divides by the *new* covariance.  This
is exactly what the implemented in-place sequence
(`c *= γ; c += γ*(1-γ)*(grad-m)**2; m *= γ; m += (1-γ)*grad`) computes. -/
theorem sdprop_c_update_reads_pre_update_m (sq : ℚ → ℚ) (step gamma c m g p : ℚ)
    (k : String) :
    SDprop.body sq step gamma ⟨[(k, [p])], [(k, [g])], [(k, [m])], [(k, [c])]⟩ k =
      .ok ⟨[(k, [p - step * g /
              (sq (gamma * c + gamma * (1 - gamma) * (g - m) ^ 2) + 1 / 100000000)])],
            [(k, [g])],
            [(k, [gamma * m + (1 - gamma) * g])],
            [(k, [gamma * c + gamma * (1 - gamma) * (g - m) ^ 2])]⟩ := by
  simp [SDprop.body, dget, dset]

/-! ### C10: Adam's incremental moment updates equal the conventional EMA forms -/

/-- Modelled from the commented-out alternative inside `Adam.update`
(`self.m[key] = self.beta1*self.m[key] + (1-self.beta1)*grads[key]`):
the conventional exponential-moving-average first moment. -/
def adamM_ema (beta1 m g : ℚ) : ℚ := beta1 * m + (1 - beta1) * g

/-- Modelled from the commented-out alternative inside `Adam.update`
(`self.v[key] = self.beta2*self.v[key] + (1-self.beta2)*(grads[key]**2)`):
the conventional exponential-moving-average second moment. -/
def adamV_ema (beta2 v g : ℚ) : ℚ := beta2 * v + (1 - beta2) * g ^ 2

/-- **C10.** Adam's implemented incremental recurrences
`m += (1-β1)*(grad - m)` and `v += (1-β2)*(grad² - v)` compute exactly the
conventional EMA values `β1*m + (1-β1)*grad` and `β2*v + (1-β2)*grad²`
(the commented-out alternative), for all `β1`, `β2` and all prior `m`, `v`,
`grad`, in exact arithmetic. -/
theorem adam_incremental_eq_ema (sq : ℚ → ℚ) (lrt beta1 beta2 m v g p : ℚ) (k : String) :
    Adam.body sq lrt beta1 beta2 ⟨[(k, [p])], [(k, [g])], [(k, [m])], [(k, [v])]⟩ k =
      .ok ⟨[(k, [p - lrt * adamM_ema beta1 m g /
              (sq (adamV_ema beta2 v g) + 1 / 10000000)])],
            [(k, [g])],
            [(k, [adamM_ema beta1 m g])],
            [(k, [adamV_ema beta2 v g])]⟩ := by
  simp [Adam.body, dget, dset, adamM_ema, adamV_ema]
  ring_nf
  exact ⟨trivial, trivial, trivial⟩

/-! ### C4: concrete two-step Momentum scenario -/

/-- **C4.** `Momentum` with `lr=0.1`, `momentum=0.9` on a single scalar
parameter `0.0` with constant gradient `1.0`: after step 1 the velocity is
`-0.1` and the parameter `-0.1`; after step 2 the velocity is `-0.19` and the
parameter `-0.29`. -/
theorem momentum_two_step_scenario :
    ((Momentum.new (1/10) (9/10)).update [("W", [0])] [("W", [1])]).inst.v =
        some [("W", [-(1/10)])] ∧
    ((Momentum.new (1/10) (9/10)).update [("W", [0])] [("W", [1])]).params =
        [("W", [-(1/10)])] ∧
    ((((Momentum.new (1/10) (9/10)).update [("W", [0])] [("W", [1])]).inst.update
        ((Momentum.new (1/10) (9/10)).update [("W", [0])] [("W", [1])]).params
        [("W", [1])]).inst.v) = some [("W", [-(19/100)])] ∧
    ((((Momentum.new (1/10) (9/10)).update [("W", [0])] [("W", [1])]).inst.update
        ((Momentum.new (1/10) (9/10)).update [("W", [0])] [("W", [1])]).params
        [("W", [1])]).params) = [("W", [-(29/100)])] := by
  norm_num [Momentum.update, Momentum.new, Momentum.body, pyFor, lazyInit, zerosDict,
    zerosLike, dget, dset, dkeys]

/-! ### C2: zero gradients from zero state leave the parameters unchanged -/

theorem pyFor_fixed {σ : Type} (body : σ → String → Except σ σ) (s : σ) :
    ∀ ks : List String, (∀ k ∈ ks, body s k = .ok s) → pyFor body s ks = .ok s := by
  intro ks
  induction ks with
  | nil => intro _; rfl
  | cons k t ih =>
    intro h
    have hk := h k (List.mem_cons_self k t)
    simp only [pyFor, hk]
    exact ih (fun x hx => h x (List.mem_cons_of_mem _ hx))

theorem sgd_body_zero_grad (o : SGD) (p : TDict) (hnd : (dkeys p).Nodup)
    {k : String} (hk : k ∈ dkeys p) :
    SGD.body o ⟨p, zerosDict p⟩ k = .ok ⟨p, zerosDict p⟩ := by
  obtain ⟨pk, hpk⟩ := dget_eq_some_of_mem_dkeys hk
  have hz : dget (zerosDict p) k = some (zerosLike pk) := by
    rw [dget_zerosDict, hpk]; rfl
  have h1 : List.zipWith (fun x g => x - o.lr * g) pk (zerosLike pk) = pk :=
    zipWith_zerosLike_right _ (fun x => by ring) pk
  have h2 : dset p k pk = p := dset_dget_self hnd hpk
  simp only [SGD.body, hpk, hz, h1, h2]

theorem sgd_update_zero_grad (o : SGD) (p : TDict) (hnd : (dkeys p).Nodup) :
    (o.update p (zerosDict p)).params = p ∧ (o.update p (zerosDict p)).ok = true := by
  have hfix : pyFor (SGD.body o) ⟨p, zerosDict p⟩ (dkeys p) = .ok ⟨p, zerosDict p⟩ :=
    pyFor_fixed _ _ _ (fun k hk => sgd_body_zero_grad o p hnd hk)
  simp [SGD.update, hfix]

theorem momentum_body_zero_grad (lr momentum : ℚ) (p : TDict) (hnd : (dkeys p).Nodup)
    {k : String} (hk : k ∈ dkeys p) :
    Momentum.body lr momentum ⟨p, zerosDict p, zerosDict p⟩ k =
      .ok ⟨p, zerosDict p, zerosDict p⟩ := by
  obtain ⟨pk, hpk⟩ := dget_eq_some_of_mem_dkeys hk
  have hz : dget (zerosDict p) k = some (zerosLike pk) := by
    rw [dget_zerosDict, hpk]; rfl
  have hndz : (dkeys (zerosDict p)).Nodup := by rw [dkeys_zerosDict]; exact hnd
  have h1 : List.zipWith (fun x g => momentum * x - lr * g) (zerosLike pk) (zerosLike pk)
      = zerosLike pk := zipWith_zeros_zeros _ (by ring) pk
  have h2 : dset (zerosDict p) k (zerosLike pk) = zerosDict p := dset_dget_self hndz hz
  have h3 : List.zipWith (fun x y => x + y) pk (zerosLike pk) = pk :=
    zipWith_zerosLike_right _ (fun x => by ring) pk
  have h4 : dset p k pk = p := dset_dget_self hnd hpk
  simp only [Momentum.body, hpk, hz, h1, h2, h3, h4]

theorem momentum_update_zero_grad (o : Momentum) (p : TDict)
    (hv : o.v = none) (hnd : (dkeys p).Nodup) :
    (o.update p (zerosDict p)).params = p ∧ (o.update p (zerosDict p)).ok = true := by
  have hfix : pyFor (Momentum.body o.lr o.momentum) ⟨p, zerosDict p, zerosDict p⟩ (dkeys p)
      = .ok ⟨p, zerosDict p, zerosDict p⟩ :=
    pyFor_fixed _ _ _ (fun k hk => momentum_body_zero_grad o.lr o.momentum p hnd hk)
  simp [Momentum.update, hv, lazyInit, hfix]

theorem nesterov_body_zero_grad (lr momentum : ℚ) (p : TDict) (hnd : (dkeys p).Nodup)
    {k : String} (hk : k ∈ dkeys p) :
    Nesterov.body lr momentum ⟨p, zerosDict p, zerosDict p⟩ k =
      .ok ⟨p, zerosDict p, zerosDict p⟩ := by
  obtain ⟨pk, hpk⟩ := dget_eq_some_of_mem_dkeys hk
  have hz : dget (zerosDict p) k = some (zerosLike pk) := by
    rw [dget_zerosDict, hpk]; rfl
  have hndz : (dkeys (zerosDict p)).Nodup := by rw [dkeys_zerosDict]; exact hnd
  have h1 : (zerosLike pk).map (fun x => momentum * x) = zerosLike pk :=
    map_zerosLike _ (by ring) pk
  have h2 : dset (zerosDict p) k (zerosLike pk) = zerosDict p := dset_dget_self hndz hz
  have h3 : List.zipWith (fun x g => x - lr * g) (zerosLike pk) (zerosLike pk)
      = zerosLike pk := zipWith_zeros_zeros _ (by ring) pk
  have h4 : List.zipWith (fun x y => x + momentum * momentum * y) pk (zerosLike pk) = pk :=
    zipWith_zerosLike_right _ (fun x => by ring) pk
  have h5 : dset p k pk = p := dset_dget_self hnd hpk
  have h6 : List.zipWith (fun x g => x - (1 + momentum) * lr * g) pk (zerosLike pk) = pk :=
    zipWith_zerosLike_right _ (fun x => by ring) pk
  simp only [Nesterov.body, hpk, hz, h1, h2, h3, h4, h5, h6]

theorem nesterov_update_zero_grad (o : Nesterov) (p : TDict)
    (hv : o.v = none) (hnd : (dkeys p).Nodup) :
    (o.update p (zerosDict p)).params = p ∧ (o.update p (zerosDict p)).ok = true := by
  have hfix : pyFor (Nesterov.body o.lr o.momentum) ⟨p, zerosDict p, zerosDict p⟩ (dkeys p)
      = .ok ⟨p, zerosDict p, zerosDict p⟩ :=
    pyFor_fixed _ _ _ (fun k hk => nesterov_body_zero_grad o.lr o.momentum p hnd hk)
  simp [Nesterov.update, hv, lazyInit, hfix]

theorem adagrad_body_zero_grad (sq : ℚ → ℚ) (lr : ℚ) (p : TDict) (hnd : (dkeys p).Nodup)
    {k : String} (hk : k ∈ dkeys p) :
    AdaGrad.body sq lr ⟨p, zerosDict p, zerosDict p⟩ k =
      .ok ⟨p, zerosDict p, zerosDict p⟩ := by
  obtain ⟨pk, hpk⟩ := dget_eq_some_of_mem_dkeys hk
  have hz : dget (zerosDict p) k = some (zerosLike pk) := by
    rw [dget_zerosDict, hpk]; rfl
  have hndz : (dkeys (zerosDict p)).Nodup := by rw [dkeys_zerosDict]; exact hnd
  have h1 : List.zipWith (fun x g => x + g * g) (zerosLike pk) (zerosLike pk)
      = zerosLike pk := zipWith_zeros_zeros _ (by ring) pk
  have h2 : dset (zerosDict p) k (zerosLike pk) = zerosDict p := dset_dget_self hndz hz
  have h3 : List.zipWith (fun x gh => x - lr * gh.1 / (sq gh.2 + 1 / 10000000)) pk
      ((zerosLike pk).zip (zerosLike pk)) = pk :=
    zipWith_zip_zeros _ (fun x => by simp) pk
  have h4 : dset p k pk = p := dset_dget_self hnd hpk
  simp only [AdaGrad.body, hpk, hz, h1, h2, h3, h4]

theorem adagrad_update_zero_grad (sq : ℚ → ℚ) (o : AdaGrad) (p : TDict)
    (hh : o.h = none) (hnd : (dkeys p).Nodup) :
    (o.update sq p (zerosDict p)).params = p ∧ (o.update sq p (zerosDict p)).ok = true := by
  have hfix : pyFor (AdaGrad.body sq o.lr) ⟨p, zerosDict p, zerosDict p⟩ (dkeys p)
      = .ok ⟨p, zerosDict p, zerosDict p⟩ :=
    pyFor_fixed _ _ _ (fun k hk => adagrad_body_zero_grad sq o.lr p hnd hk)
  simp [AdaGrad.update, hh, lazyInit, hfix]

theorem rmsprop_body_zero_grad (sq : ℚ → ℚ) (lr dr : ℚ) (p : TDict) (hnd : (dkeys p).Nodup)
    {k : String} (hk : k ∈ dkeys p) :
    RMSprop.body sq lr dr ⟨p, zerosDict p, zerosDict p⟩ k =
      .ok ⟨p, zerosDict p, zerosDict p⟩ := by
  obtain ⟨pk, hpk⟩ := dget_eq_some_of_mem_dkeys hk
  have hz : dget (zerosDict p) k = some (zerosLike pk) := by
    rw [dget_zerosDict, hpk]; rfl
  have hndz : (dkeys (zerosDict p)).Nodup := by rw [dkeys_zerosDict]; exact hnd
  have h1 : (zerosLike pk).map (fun x => dr * x) = zerosLike pk :=
    map_zerosLike _ (by ring) pk
  have h2 : dset (zerosDict p) k (zerosLike pk) = zerosDict p := dset_dget_self hndz hz
  have h3 : List.zipWith (fun x g => x + (1 - dr) * g * g) (zerosLike pk) (zerosLike pk)
      = zerosLike pk := zipWith_zeros_zeros _ (by ring) pk
  have h4 : List.zipWith (fun x gh => x - lr * gh.1 / (sq gh.2 + 1 / 10000000)) pk
      ((zerosLike pk).zip (zerosLike pk)) = pk :=
    zipWith_zip_zeros _ (fun x => by simp) pk
  have h5 : dset p k pk = p := dset_dget_self hnd hpk
  simp only [RMSprop.body, hpk, hz, h1, h2, h3, h4, h5]

theorem rmsprop_update_zero_grad (sq : ℚ → ℚ) (o : RMSprop) (p : TDict)
    (hh : o.h = none) (hnd : (dkeys p).Nodup) :
    (o.update sq p (zerosDict p)).params = p ∧ (o.update sq p (zerosDict p)).ok = true := by
  have hfix : pyFor (RMSprop.body sq o.lr o.decay_rate) ⟨p, zerosDict p, zerosDict p⟩
      (dkeys p) = .ok ⟨p, zerosDict p, zerosDict p⟩ :=
    pyFor_fixed _ _ _ (fun k hk => rmsprop_body_zero_grad sq o.lr o.decay_rate p hnd hk)
  simp [RMSprop.update, hh, lazyInit, hfix]

theorem adam_body_zero_grad (sq : ℚ → ℚ) (lrt b1 b2 : ℚ) (p : TDict)
    (hnd : (dkeys p).Nodup) {k : String} (hk : k ∈ dkeys p) :
    Adam.body sq lrt b1 b2 ⟨p, zerosDict p, zerosDict p, zerosDict p⟩ k =
      .ok ⟨p, zerosDict p, zerosDict p, zerosDict p⟩ := by
  obtain ⟨pk, hpk⟩ := dget_eq_some_of_mem_dkeys hk
  have hz : dget (zerosDict p) k = some (zerosLike pk) := by
    rw [dget_zerosDict, hpk]; rfl
  have hndz : (dkeys (zerosDict p)).Nodup := by rw [dkeys_zerosDict]; exact hnd
  have h1 : List.zipWith (fun m g => m + (1 - b1) * (g - m)) (zerosLike pk) (zerosLike pk)
      = zerosLike pk := zipWith_zeros_zeros _ (by ring) pk
  have h2 : dset (zerosDict p) k (zerosLike pk) = zerosDict p := dset_dget_self hndz hz
  have h3 : List.zipWith (fun v g => v + (1 - b2) * (g ^ 2 - v)) (zerosLike pk)
      (zerosLike pk) = zerosLike pk := zipWith_zeros_zeros _ (by ring) pk
  have h4 : List.zipWith (fun x mv => x - lrt * mv.1 / (sq mv.2 + 1 / 10000000)) pk
      ((zerosLike pk).zip (zerosLike pk)) = pk :=
    zipWith_zip_zeros _ (fun x => by simp) pk
  have h5 : dset p k pk = p := dset_dget_self hnd hpk
  simp only [Adam.body, hpk, hz, h1, h2, h3, h4, h5]

theorem adam_update_zero_grad (sq : ℚ → ℚ) (o : Adam) (p : TDict)
    (hmv : o.mv = none) (hnd : (dkeys p).Nodup) :
    (o.update sq p (zerosDict p)).params = p ∧ (o.update sq p (zerosDict p)).ok = true := by
  have hfix : pyFor
      (Adam.body sq (o.lr * sq (1 - o.beta2 ^ (o.iter + 1)) / (1 - o.beta1 ^ (o.iter + 1)))
        o.beta1 o.beta2)
      ⟨p, zerosDict p, zerosDict p, zerosDict p⟩ (dkeys p)
      = .ok ⟨p, zerosDict p, zerosDict p, zerosDict p⟩ :=
    pyFor_fixed _ _ _ (fun k hk => adam_body_zero_grad sq _ o.beta1 o.beta2 p hnd hk)
  simp [Adam.update, hmv, lazyInit, hfix]

theorem sdprop_body_zero_grad (sq : ℚ → ℚ) (step gamma : ℚ) (p : TDict)
    (hnd : (dkeys p).Nodup) {k : String} (hk : k ∈ dkeys p) :
    SDprop.body sq step gamma ⟨p, zerosDict p, zerosDict p, zerosDict p⟩ k =
      .ok ⟨p, zerosDict p, zerosDict p, zerosDict p⟩ := by
  obtain ⟨pk, hpk⟩ := dget_eq_some_of_mem_dkeys hk
  have hz : dget (zerosDict p) k = some (zerosLike pk) := by
    rw [dget_zerosDict, hpk]; rfl
  have hndz : (dkeys (zerosDict p)).Nodup := by rw [dkeys_zerosDict]; exact hnd
  have h1 : (zerosLike pk).map (fun x => gamma * x) = zerosLike pk :=
    map_zerosLike _ (by ring) pk
  have h2 : dset (zerosDict p) k (zerosLike pk) = zerosDict p := dset_dget_self hndz hz
  have h3 : List.zipWith (fun x gm => x + gamma * (1 - gamma) * (gm.1 - gm.2) ^ 2)
      (zerosLike pk) ((zerosLike pk).zip (zerosLike pk)) = zerosLike pk :=
    zipWith_zeros_zip_zeros _ (by ring) pk
  have h4 : List.zipWith (fun x g => x + (1 - gamma) * g) (zerosLike pk) (zerosLike pk)
      = zerosLike pk := zipWith_zeros_zeros _ (by ring) pk
  have h5 : List.zipWith (fun x gc => x - step * gc.1 / (sq gc.2 + 1 / 100000000)) pk
      ((zerosLike pk).zip (zerosLike pk)) = pk :=
    zipWith_zip_zeros _ (fun x => by simp) pk
  have h6 : dset p k pk = p := dset_dget_self hnd hpk
  simp only [SDprop.body, hpk, hz, h1, h2, h3, h4, h5, h6]

theorem sdprop_update_zero_grad (sq : ℚ → ℚ) (o : SDprop) (p : TDict)
    (hmc : o.mc = none) (hnd : (dkeys p).Nodup) :
    (o.update sq p (zerosDict p)).params = p ∧ (o.update sq p (zerosDict p)).ok = true := by
  have hfix : ∀ step : ℚ, pyFor (SDprop.body sq step o.gamma)
      ⟨p, zerosDict p, zerosDict p, zerosDict p⟩ (dkeys p)
      = .ok ⟨p, zerosDict p, zerosDict p, zerosDict p⟩ :=
    fun step =>
      pyFor_fixed _ _ _ (fun k hk => sdprop_body_zero_grad sq step o.gamma p hnd hk)
  simp [SDprop.update, hmc, lazyInit, hfix]

theorem adastand_body_zero_grad (sq : ℚ → ℚ) (lrt b1 b2 eps : ℚ) (p : TDict)
    (hnd : (dkeys p).Nodup) {k : String} (hk : k ∈ dkeys p) :
    Adastand.body sq lrt b1 b2 eps ⟨p, zerosDict p, zerosDict p, zerosDict p⟩ k =
      .ok ⟨p, zerosDict p, zerosDict p, zerosDict p⟩ := by
  obtain ⟨pk, hpk⟩ := dget_eq_some_of_mem_dkeys hk
  have hz : dget (zerosDict p) k = some (zerosLike pk) := by
    rw [dget_zerosDict, hpk]; rfl
  have hndz : (dkeys (zerosDict p)).Nodup := by rw [dkeys_zerosDict]; exact hnd
  have h1 : List.zipWith (fun v gm => v + (1 - b2) * (b2 * (gm.1 - gm.2) ^ 2 - v))
      (zerosLike pk) ((zerosLike pk).zip (zerosLike pk)) = zerosLike pk :=
    zipWith_zeros_zip_zeros _ (by ring) pk
  have h2 : dset (zerosDict p) k (zerosLike pk) = zerosDict p := dset_dget_self hndz hz
  have h3 : List.zipWith (fun m g => m + (1 - b1) * (g - 2 * m)) (zerosLike pk)
      (zerosLike pk) = zerosLike pk := zipWith_zeros_zeros _ (by ring) pk
  have h4 : List.zipWith (fun x mv => x - lrt * mv.1 / (sq mv.2 + eps)) pk
      ((zerosLike pk).zip (zerosLike pk)) = pk :=
    zipWith_zip_zeros _ (fun x => by simp) pk
  have h5 : dset p k pk = p := dset_dget_self hnd hpk
  simp only [Adastand.body, hpk, hz, h1, h2, h3, h4, h5]

theorem adastand_update_zero_grad (sq : ℚ → ℚ) (o : Adastand) (p : TDict)
    (hmv : o.mv = none) (hnd : (dkeys p).Nodup) :
    (o.update sq p (zerosDict p)).params = p ∧ (o.update sq p (zerosDict p)).ok = true := by
  have hfix : pyFor
      (Adastand.body sq
        (o.lr * sq (1 - o.beta2 ^ (o.iter + 1)) / (1 - o.beta1 ^ (o.iter + 1)))
        o.beta1 o.beta2 o.epsilon)
      ⟨p, zerosDict p, zerosDict p, zerosDict p⟩ (dkeys p)
      = .ok ⟨p, zerosDict p, zerosDict p, zerosDict p⟩ :=
    pyFor_fixed _ _ _
      (fun k hk => adastand_body_zero_grad sq _ o.beta1 o.beta2 o.epsilon p hnd hk)
  simp [Adastand.update, hmv, lazyInit, hfix]

/-- **C2.** For every variant, starting from the zero accumulator state produced
by lazy initialization (a freshly constructed instance), a single `update` call
whose gradient dict assigns the zero tensor of the parameter's shape to every
key leaves every tensor in `params` unchanged, and the call returns normally:
SGD, Momentum, Nesterov, AdaGrad, RMSprop, Adam, Adastand, and also SDprop
(with either `bias_correction` setting), for every hyperparameter choice and
every model `sq` of `np.sqrt`. -/
theorem zero_gradient_fixed_point (sq : ℚ → ℚ)
    (lr mom dr b1 b2 gam eps : ℚ) (bs : Bool) (p : TDict) (hnd : (dkeys p).Nodup) :
    ((SGD.new lr).update p (zerosDict p)).params = p ∧
    ((SGD.new lr).update p (zerosDict p)).ok = true ∧
    ((Momentum.new lr mom).update p (zerosDict p)).params = p ∧
    ((Momentum.new lr mom).update p (zerosDict p)).ok = true ∧
    ((Nesterov.new lr mom).update p (zerosDict p)).params = p ∧
    ((Nesterov.new lr mom).update p (zerosDict p)).ok = true ∧
    ((AdaGrad.new lr).update sq p (zerosDict p)).params = p ∧
    ((AdaGrad.new lr).update sq p (zerosDict p)).ok = true ∧
    ((RMSprop.new lr dr).update sq p (zerosDict p)).params = p ∧
    ((RMSprop.new lr dr).update sq p (zerosDict p)).ok = true ∧
    ((Adam.new lr b1 b2).update sq p (zerosDict p)).params = p ∧
    ((Adam.new lr b1 b2).update sq p (zerosDict p)).ok = true ∧
    ((SDprop.new lr gam bs).update sq p (zerosDict p)).params = p ∧
    ((SDprop.new lr gam bs).update sq p (zerosDict p)).ok = true ∧
    ((Adastand.new lr b1 b2 eps).update sq p (zerosDict p)).params = p ∧
    ((Adastand.new lr b1 b2 eps).update sq p (zerosDict p)).ok = true := by
  obtain ⟨s1, s2⟩ := sgd_update_zero_grad (SGD.new lr) p hnd
  obtain ⟨m1, m2⟩ := momentum_update_zero_grad (Momentum.new lr mom) p rfl hnd
  obtain ⟨n1, n2⟩ := nesterov_update_zero_grad (Nesterov.new lr mom) p rfl hnd
  obtain ⟨g1, g2⟩ := adagrad_update_zero_grad sq (AdaGrad.new lr) p rfl hnd
  obtain ⟨r1, r2⟩ := rmsprop_update_zero_grad sq (RMSprop.new lr dr) p rfl hnd
  obtain ⟨a1, a2⟩ := adam_update_zero_grad sq (Adam.new lr b1 b2) p rfl hnd
  obtain ⟨d1, d2⟩ := sdprop_update_zero_grad sq (SDprop.new lr gam bs) p rfl hnd
  obtain ⟨t1, t2⟩ := adastand_update_zero_grad sq (Adastand.new lr b1 b2 eps) p rfl hnd
  exact ⟨s1, s2, m1, m2, n1, n2, g1, g2, r1, r2, a1, a2, d1, d2, t1, t2⟩

/-- Witness for `zero_gradient_fixed_point` at a concrete input: one key `"a"`
holding the one-element tensor `[5]`, `sq = id`, all hyperparameters `1/2`,
`bias_correction = true`. -/
theorem zero_gradient_fixed_point_witness :
    ((SGD.new (1/2)).update [("a", [5])] (zerosDict [("a", [5])])).params = [("a", [5])] ∧
    ((SGD.new (1/2)).update [("a", [5])] (zerosDict [("a", [5])])).ok = true ∧
    ((Momentum.new (1/2) (1/2)).update [("a", [5])] (zerosDict [("a", [5])])).params
      = [("a", [5])] ∧
    ((Momentum.new (1/2) (1/2)).update [("a", [5])] (zerosDict [("a", [5])])).ok = true ∧
    ((Nesterov.new (1/2) (1/2)).update [("a", [5])] (zerosDict [("a", [5])])).params
      = [("a", [5])] ∧
    ((Nesterov.new (1/2) (1/2)).update [("a", [5])] (zerosDict [("a", [5])])).ok = true ∧
    ((AdaGrad.new (1/2)).update id [("a", [5])] (zerosDict [("a", [5])])).params
      = [("a", [5])] ∧
    ((AdaGrad.new (1/2)).update id [("a", [5])] (zerosDict [("a", [5])])).ok = true ∧
    ((RMSprop.new (1/2) (1/2)).update id [("a", [5])] (zerosDict [("a", [5])])).params
      = [("a", [5])] ∧
    ((RMSprop.new (1/2) (1/2)).update id [("a", [5])] (zerosDict [("a", [5])])).ok = true ∧
    ((Adam.new (1/2) (1/2) (1/2)).update id [("a", [5])] (zerosDict [("a", [5])])).params
      = [("a", [5])] ∧
    ((Adam.new (1/2) (1/2) (1/2)).update id [("a", [5])] (zerosDict [("a", [5])])).ok
      = true ∧
    ((SDprop.new (1/2) (1/2) true).update id [("a", [5])] (zerosDict [("a", [5])])).params
      = [("a", [5])] ∧
    ((SDprop.new (1/2) (1/2) true).update id [("a", [5])] (zerosDict [("a", [5])])).ok
      = true ∧
    ((Adastand.new (1/2) (1/2) (1/2) (1/2)).update id [("a", [5])]
      (zerosDict [("a", [5])])).params = [("a", [5])] ∧
    ((Adastand.new (1/2) (1/2) (1/2) (1/2)).update id [("a", [5])]
      (zerosDict [("a", [5])])).ok = true :=
  zero_gradient_fixed_point id (1/2) (1/2) (1/2) (1/2) (1/2) (1/2) (1/2) true
    [("a", [5])] (by decide)

/-! ### Frame and state-key preservation (C6, C9) -/

theorem pyFor_pres {σ : Type} (body : σ → String → Except σ σ) (P : σ → Prop)
    (hb : ∀ s k, P s → P (resSt (body s k))) :
    ∀ (ks : List String) (s : σ), P s → P (resSt (pyFor body s ks)) := by
  intro ks
  induction ks with
  | nil => intro s hs; exact hs
  | cons k t ih =>
    intro s hs
    have hstep := hb s k hs
    cases hbk : body s k with
    | ok s' =>
      rw [hbk] at hstep
      simp only [pyFor, hbk]
      exact ih s' hstep
    | error s' =>
      rw [hbk] at hstep
      simp only [pyFor, hbk]
      exact hstep

theorem zerosLike_replicate (t : Tensor) : zerosLike t = List.replicate t.length 0 := by
  induction t with
  | nil => rfl
  | cons a t ih =>
    simp only [zerosLike, List.map_cons, List.length_cons, List.replicate_succ]
    simp only [zerosLike] at ih
    rw [ih]

theorem sgd_body_pres (o : SGD) (s : SGDSt) (k : String) :
    dkeys (resSt (SGD.body o s k)).params = dkeys s.params ∧
    (resSt (SGD.body o s k)).grads = s.grads := by
  unfold SGD.body
  cases dget s.params k with
  | none => dsimp only [resSt]; exact ⟨rfl, rfl⟩
  | some pk =>
    cases dget s.grads k with
    | none => dsimp only [resSt]; exact ⟨rfl, rfl⟩
    | some gk => dsimp only [resSt]; exact ⟨by rw [dkeys_dset], rfl⟩

theorem momentum_body_pres (lr mom : ℚ) (s : MomSt) (k : String) :
    dkeys (resSt (Momentum.body lr mom s k)).params = dkeys s.params ∧
    (resSt (Momentum.body lr mom s k)).grads = s.grads ∧
    dkeys (resSt (Momentum.body lr mom s k)).v = dkeys s.v := by
  unfold Momentum.body
  cases dget s.v k with
  | none => dsimp only [resSt]; exact ⟨rfl, rfl, rfl⟩
  | some vk =>
    cases dget s.grads k with
    | none => dsimp only [resSt]; exact ⟨rfl, rfl, rfl⟩
    | some gk =>
      dsimp only
      cases dget s.params k with
      | none => dsimp only [resSt]; exact ⟨rfl, rfl, by rw [dkeys_dset]⟩
      | some pk => dsimp only [resSt]; exact ⟨by rw [dkeys_dset], rfl, by rw [dkeys_dset]⟩

theorem nesterov_body_pres (lr mom : ℚ) (s : MomSt) (k : String) :
    dkeys (resSt (Nesterov.body lr mom s k)).params = dkeys s.params ∧
    (resSt (Nesterov.body lr mom s k)).grads = s.grads ∧
    dkeys (resSt (Nesterov.body lr mom s k)).v = dkeys s.v := by
  unfold Nesterov.body
  cases dget s.v k with
  | none => dsimp only [resSt]; exact ⟨rfl, rfl, rfl⟩
  | some vk =>
    dsimp only
    cases dget s.grads k with
    | none => dsimp only [resSt]; exact ⟨rfl, rfl, by rw [dkeys_dset]⟩
    | some gk =>
      dsimp only
      cases dget s.params k with
      | none => dsimp only [resSt]; exact ⟨rfl, rfl, by rw [dkeys_dset, dkeys_dset]⟩
      | some pk =>
        dsimp only [resSt]
        exact ⟨by rw [dkeys_dset, dkeys_dset], rfl, by rw [dkeys_dset, dkeys_dset]⟩

theorem adagrad_body_pres (sq : ℚ → ℚ) (lr : ℚ) (s : AdaSt) (k : String) :
    dkeys (resSt (AdaGrad.body sq lr s k)).params = dkeys s.params ∧
    (resSt (AdaGrad.body sq lr s k)).grads = s.grads ∧
    dkeys (resSt (AdaGrad.body sq lr s k)).h = dkeys s.h := by
  unfold AdaGrad.body
  cases dget s.h k with
  | none => dsimp only [resSt]; exact ⟨rfl, rfl, rfl⟩
  | some hk =>
    cases dget s.grads k with
    | none => dsimp only [resSt]; exact ⟨rfl, rfl, rfl⟩
    | some gk =>
      dsimp only
      cases dget s.params k with
      | none => dsimp only [resSt]; exact ⟨rfl, rfl, by rw [dkeys_dset]⟩
      | some pk => dsimp only [resSt]; exact ⟨by rw [dkeys_dset], rfl, by rw [dkeys_dset]⟩

theorem rmsprop_body_pres (sq : ℚ → ℚ) (lr dr : ℚ) (s : AdaSt) (k : String) :
    dkeys (resSt (RMSprop.body sq lr dr s k)).params = dkeys s.params ∧
    (resSt (RMSprop.body sq lr dr s k)).grads = s.grads ∧
    dkeys (resSt (RMSprop.body sq lr dr s k)).h = dkeys s.h := by
  unfold RMSprop.body
  cases dget s.h k with
  | none => dsimp only [resSt]; exact ⟨rfl, rfl, rfl⟩
  | some hk =>
    dsimp only
    cases dget s.grads k with
    | none => dsimp only [resSt]; exact ⟨rfl, rfl, by rw [dkeys_dset]⟩
    | some gk =>
      dsimp only
      cases dget s.params k with
      | none => dsimp only [resSt]; exact ⟨rfl, rfl, by rw [dkeys_dset, dkeys_dset]⟩
      | some pk => dsimp only [resSt]; exact ⟨by rw [dkeys_dset], rfl, by rw [dkeys_dset, dkeys_dset]⟩

theorem adam_body_pres (sq : ℚ → ℚ) (lrt b1 b2 : ℚ) (s : AdamSt) (k : String) :
    dkeys (resSt (Adam.body sq lrt b1 b2 s k)).params = dkeys s.params ∧
    (resSt (Adam.body sq lrt b1 b2 s k)).grads = s.grads ∧
    dkeys (resSt (Adam.body sq lrt b1 b2 s k)).m = dkeys s.m ∧
    dkeys (resSt (Adam.body sq lrt b1 b2 s k)).v = dkeys s.v := by
  unfold Adam.body
  cases dget s.m k with
  | none => dsimp only [resSt]; exact ⟨rfl, rfl, rfl, rfl⟩
  | some mk0 =>
    cases dget s.grads k with
    | none => dsimp only [resSt]; exact ⟨rfl, rfl, rfl, rfl⟩
    | some gk =>
      dsimp only
      cases dget s.v k with
      | none => dsimp only [resSt]; exact ⟨rfl, rfl, by rw [dkeys_dset], rfl⟩
      | some vk =>
        dsimp only
        cases dget s.params k with
        | none => dsimp only [resSt]; exact ⟨rfl, rfl, by rw [dkeys_dset], by rw [dkeys_dset]⟩
        | some pk =>
          dsimp only [resSt]
          exact ⟨by rw [dkeys_dset], rfl, by rw [dkeys_dset], by rw [dkeys_dset]⟩

theorem sdprop_body_pres (sq : ℚ → ℚ) (step gam : ℚ) (s : SDSt) (k : String) :
    dkeys (resSt (SDprop.body sq step gam s k)).params = dkeys s.params ∧
    (resSt (SDprop.body sq step gam s k)).grads = s.grads ∧
    dkeys (resSt (SDprop.body sq step gam s k)).m = dkeys s.m ∧
    dkeys (resSt (SDprop.body sq step gam s k)).c = dkeys s.c := by
  unfold SDprop.body
  cases dget s.c k with
  | none => dsimp only [resSt]; exact ⟨rfl, rfl, rfl, rfl⟩
  | some ck =>
    dsimp only
    cases dget s.grads k with
    | none => dsimp only [resSt]; exact ⟨rfl, rfl, rfl, by rw [dkeys_dset]⟩
    | some gk =>
      cases dget s.m k with
      | none => dsimp only [resSt]; exact ⟨rfl, rfl, rfl, by rw [dkeys_dset]⟩
      | some mk0 =>
        dsimp only
        cases dget s.params k with
        | none => dsimp only [resSt]; exact ⟨rfl, rfl, by rw [dkeys_dset], by rw [dkeys_dset, dkeys_dset]⟩
        | some pk =>
          dsimp only [resSt]
          exact ⟨by rw [dkeys_dset], rfl, by rw [dkeys_dset],
            by rw [dkeys_dset, dkeys_dset]⟩

theorem adastand_body_pres (sq : ℚ → ℚ) (lrt b1 b2 eps : ℚ) (s : AdamSt) (k : String) :
    dkeys (resSt (Adastand.body sq lrt b1 b2 eps s k)).params = dkeys s.params ∧
    (resSt (Adastand.body sq lrt b1 b2 eps s k)).grads = s.grads ∧
    dkeys (resSt (Adastand.body sq lrt b1 b2 eps s k)).m = dkeys s.m ∧
    dkeys (resSt (Adastand.body sq lrt b1 b2 eps s k)).v = dkeys s.v := by
  unfold Adastand.body
  cases dget s.v k with
  | none => dsimp only [resSt]; exact ⟨rfl, rfl, rfl, rfl⟩
  | some vk =>
    cases dget s.grads k with
    | none => dsimp only [resSt]; exact ⟨rfl, rfl, rfl, rfl⟩
    | some gk =>
      cases dget s.m k with
      | none => dsimp only [resSt]; exact ⟨rfl, rfl, rfl, rfl⟩
      | some mk0 =>
        dsimp only
        cases dget s.params k with
        | none => dsimp only [resSt]; exact ⟨rfl, rfl, by rw [dkeys_dset], by rw [dkeys_dset]⟩
        | some pk =>
          dsimp only [resSt]
          exact ⟨by rw [dkeys_dset], rfl, by rw [dkeys_dset], by rw [dkeys_dset]⟩

theorem momentum_update_pres (o : Momentum) (p g : TDict) :
    dkeys (o.update p g).params = dkeys p ∧ (o.update p g).grads = g ∧
    ((o.update p g).inst.v).map dkeys = some (dkeys (lazyInit o.v p)) := by
  have hp : ∀ r, pyFor (Momentum.body o.lr o.momentum) ⟨p, g, lazyInit o.v p⟩ (dkeys p) = r →
      dkeys (resSt r).params = dkeys p ∧ (resSt r).grads = g ∧
      dkeys (resSt r).v = dkeys (lazyInit o.v p) := by
    intro r hr
    rw [← hr]
    exact pyFor_pres _
      (fun s : MomSt =>
        dkeys s.params = dkeys p ∧ s.grads = g ∧ dkeys s.v = dkeys (lazyInit o.v p))
      (fun s k hs => by
        obtain ⟨b1, b2, b3⟩ := momentum_body_pres o.lr o.momentum s k
        exact ⟨b1.trans hs.1, b2.trans hs.2.1, b3.trans hs.2.2⟩)
      (dkeys p) _ ⟨rfl, rfl, rfl⟩
  unfold Momentum.update
  dsimp only
  cases hres : pyFor (Momentum.body o.lr o.momentum) ⟨p, g, lazyInit o.v p⟩ (dkeys p) with
  | ok s =>
    obtain ⟨h1, h2, h3⟩ := hp _ hres
    dsimp only [resSt] at h1 h2 h3
    exact ⟨h1, h2, congrArg some h3⟩
  | error s =>
    obtain ⟨h1, h2, h3⟩ := hp _ hres
    dsimp only [resSt] at h1 h2 h3
    exact ⟨h1, h2, congrArg some h3⟩

theorem sgd_update_pres (o : SGD) (p g : TDict) :
    dkeys (o.update p g).params = dkeys p ∧ (o.update p g).grads = g := by
  have hp : ∀ r, pyFor (SGD.body o) ⟨p, g⟩ (dkeys p) = r →
      dkeys (resSt r).params = dkeys p ∧ (resSt r).grads = g := by
    intro r hr
    rw [← hr]
    exact pyFor_pres _ (fun s : SGDSt => dkeys s.params = dkeys p ∧ s.grads = g)
      (fun s k hs => by
        obtain ⟨b1, b2⟩ := sgd_body_pres o s k
        exact ⟨b1.trans hs.1, b2.trans hs.2⟩)
      (dkeys p) _ ⟨rfl, rfl⟩
  unfold SGD.update
  cases hres : pyFor (SGD.body o) ⟨p, g⟩ (dkeys p) with
  | ok s =>
    obtain ⟨h1, h2⟩ := hp _ hres
    dsimp only [resSt] at h1 h2
    exact ⟨h1, h2⟩
  | error s =>
    obtain ⟨h1, h2⟩ := hp _ hres
    dsimp only [resSt] at h1 h2
    exact ⟨h1, h2⟩

theorem nesterov_update_pres (o : Nesterov) (p g : TDict) :
    dkeys (o.update p g).params = dkeys p ∧ (o.update p g).grads = g ∧
    ((o.update p g).inst.v).map dkeys = some (dkeys (lazyInit o.v p)) := by
  have hp : ∀ r, pyFor (Nesterov.body o.lr o.momentum) ⟨p, g, lazyInit o.v p⟩ (dkeys p) = r →
      dkeys (resSt r).params = dkeys p ∧ (resSt r).grads = g ∧
      dkeys (resSt r).v = dkeys (lazyInit o.v p) := by
    intro r hr
    rw [← hr]
    exact pyFor_pres _
      (fun s : MomSt =>
        dkeys s.params = dkeys p ∧ s.grads = g ∧ dkeys s.v = dkeys (lazyInit o.v p))
      (fun s k hs => by
        obtain ⟨b1, b2, b3⟩ := nesterov_body_pres o.lr o.momentum s k
        exact ⟨b1.trans hs.1, b2.trans hs.2.1, b3.trans hs.2.2⟩)
      (dkeys p) _ ⟨rfl, rfl, rfl⟩
  unfold Nesterov.update
  dsimp only
  cases hres : pyFor (Nesterov.body o.lr o.momentum) ⟨p, g, lazyInit o.v p⟩ (dkeys p) with
  | ok s =>
    obtain ⟨h1, h2, h3⟩ := hp _ hres
    dsimp only [resSt] at h1 h2 h3
    exact ⟨h1, h2, congrArg some h3⟩
  | error s =>
    obtain ⟨h1, h2, h3⟩ := hp _ hres
    dsimp only [resSt] at h1 h2 h3
    exact ⟨h1, h2, congrArg some h3⟩

theorem adagrad_update_pres (sq : ℚ → ℚ) (o : AdaGrad) (p g : TDict) :
    dkeys (o.update sq p g).params = dkeys p ∧ (o.update sq p g).grads = g ∧
    ((o.update sq p g).inst.h).map dkeys = some (dkeys (lazyInit o.h p)) := by
  have hp : ∀ r, pyFor (AdaGrad.body sq o.lr) ⟨p, g, lazyInit o.h p⟩ (dkeys p) = r →
      dkeys (resSt r).params = dkeys p ∧ (resSt r).grads = g ∧
      dkeys (resSt r).h = dkeys (lazyInit o.h p) := by
    intro r hr
    rw [← hr]
    exact pyFor_pres _
      (fun s : AdaSt =>
        dkeys s.params = dkeys p ∧ s.grads = g ∧ dkeys s.h = dkeys (lazyInit o.h p))
      (fun s k hs => by
        obtain ⟨b1, b2, b3⟩ := adagrad_body_pres sq o.lr s k
        exact ⟨b1.trans hs.1, b2.trans hs.2.1, b3.trans hs.2.2⟩)
      (dkeys p) _ ⟨rfl, rfl, rfl⟩
  unfold AdaGrad.update
  dsimp only
  cases hres : pyFor (AdaGrad.body sq o.lr) ⟨p, g, lazyInit o.h p⟩ (dkeys p) with
  | ok s =>
    obtain ⟨h1, h2, h3⟩ := hp _ hres
    dsimp only [resSt] at h1 h2 h3
    exact ⟨h1, h2, congrArg some h3⟩
  | error s =>
    obtain ⟨h1, h2, h3⟩ := hp _ hres
    dsimp only [resSt] at h1 h2 h3
    exact ⟨h1, h2, congrArg some h3⟩

theorem rmsprop_update_pres (sq : ℚ → ℚ) (o : RMSprop) (p g : TDict) :
    dkeys (o.update sq p g).params = dkeys p ∧ (o.update sq p g).grads = g ∧
    ((o.update sq p g).inst.h).map dkeys = some (dkeys (lazyInit o.h p)) := by
  have hp : ∀ r, pyFor (RMSprop.body sq o.lr o.decay_rate) ⟨p, g, lazyInit o.h p⟩
      (dkeys p) = r →
      dkeys (resSt r).params = dkeys p ∧ (resSt r).grads = g ∧
      dkeys (resSt r).h = dkeys (lazyInit o.h p) := by
    intro r hr
    rw [← hr]
    exact pyFor_pres _
      (fun s : AdaSt =>
        dkeys s.params = dkeys p ∧ s.grads = g ∧ dkeys s.h = dkeys (lazyInit o.h p))
      (fun s k hs => by
        obtain ⟨b1, b2, b3⟩ := rmsprop_body_pres sq o.lr o.decay_rate s k
        exact ⟨b1.trans hs.1, b2.trans hs.2.1, b3.trans hs.2.2⟩)
      (dkeys p) _ ⟨rfl, rfl, rfl⟩
  unfold RMSprop.update
  dsimp only
  cases hres : pyFor (RMSprop.body sq o.lr o.decay_rate) ⟨p, g, lazyInit o.h p⟩ (dkeys p) with
  | ok s =>
    obtain ⟨h1, h2, h3⟩ := hp _ hres
    dsimp only [resSt] at h1 h2 h3
    exact ⟨h1, h2, congrArg some h3⟩
  | error s =>
    obtain ⟨h1, h2, h3⟩ := hp _ hres
    dsimp only [resSt] at h1 h2 h3
    exact ⟨h1, h2, congrArg some h3⟩

theorem adam_update_pres (sq : ℚ → ℚ) (o : Adam) (p g : TDict) :
    dkeys (o.update sq p g).params = dkeys p ∧ (o.update sq p g).grads = g ∧
    ((o.update sq p g).inst.mv).map (fun x => (dkeys x.1, dkeys x.2)) =
      some (dkeys (lazyInit (o.mv.map Prod.fst) p),
            dkeys (lazyInit (o.mv.map Prod.snd) p)) := by
  have hp : ∀ (lrt : ℚ) r, pyFor (Adam.body sq lrt o.beta1 o.beta2)
      ⟨p, g, lazyInit (o.mv.map Prod.fst) p, lazyInit (o.mv.map Prod.snd) p⟩
      (dkeys p) = r →
      dkeys (resSt r).params = dkeys p ∧ (resSt r).grads = g ∧
      dkeys (resSt r).m = dkeys (lazyInit (o.mv.map Prod.fst) p) ∧
      dkeys (resSt r).v = dkeys (lazyInit (o.mv.map Prod.snd) p) := by
    intro lrt r hr
    rw [← hr]
    exact pyFor_pres _
      (fun s : AdamSt => dkeys s.params = dkeys p ∧ s.grads = g ∧
        dkeys s.m = dkeys (lazyInit (o.mv.map Prod.fst) p) ∧
        dkeys s.v = dkeys (lazyInit (o.mv.map Prod.snd) p))
      (fun s k hs => by
        obtain ⟨b1, b2, b3, b4⟩ := adam_body_pres sq lrt o.beta1 o.beta2 s k
        exact ⟨b1.trans hs.1, b2.trans hs.2.1, b3.trans hs.2.2.1, b4.trans hs.2.2.2⟩)
      (dkeys p) _ ⟨rfl, rfl, rfl, rfl⟩
  unfold Adam.update
  dsimp only
  cases hres : pyFor (Adam.body sq
      (o.lr * sq (1 - o.beta2 ^ (o.iter + 1)) / (1 - o.beta1 ^ (o.iter + 1)))
      o.beta1 o.beta2)
      ⟨p, g, lazyInit (o.mv.map Prod.fst) p, lazyInit (o.mv.map Prod.snd) p⟩
      (dkeys p) with
  | ok s =>
    obtain ⟨h1, h2, h3, h4⟩ := hp _ _ hres
    dsimp only [resSt] at h1 h2 h3 h4
    refine ⟨h1, h2, ?_⟩
    exact congrArg some (by dsimp only; rw [h3, h4])
  | error s =>
    obtain ⟨h1, h2, h3, h4⟩ := hp _ _ hres
    dsimp only [resSt] at h1 h2 h3 h4
    refine ⟨h1, h2, ?_⟩
    exact congrArg some (by dsimp only; rw [h3, h4])

theorem sdprop_update_pres (sq : ℚ → ℚ) (o : SDprop) (p g : TDict) :
    dkeys (o.update sq p g).params = dkeys p ∧ (o.update sq p g).grads = g ∧
    ((o.update sq p g).inst.mc).map (fun x => (dkeys x.1, dkeys x.2)) =
      some (dkeys (lazyInit (o.mc.map Prod.fst) p),
            dkeys (lazyInit (o.mc.map Prod.snd) p)) := by
  have hp : ∀ (step : ℚ) r, pyFor (SDprop.body sq step o.gamma)
      ⟨p, g, lazyInit (o.mc.map Prod.fst) p, lazyInit (o.mc.map Prod.snd) p⟩
      (dkeys p) = r →
      dkeys (resSt r).params = dkeys p ∧ (resSt r).grads = g ∧
      dkeys (resSt r).m = dkeys (lazyInit (o.mc.map Prod.fst) p) ∧
      dkeys (resSt r).c = dkeys (lazyInit (o.mc.map Prod.snd) p) := by
    intro step r hr
    rw [← hr]
    exact pyFor_pres _
      (fun s : SDSt => dkeys s.params = dkeys p ∧ s.grads = g ∧
        dkeys s.m = dkeys (lazyInit (o.mc.map Prod.fst) p) ∧
        dkeys s.c = dkeys (lazyInit (o.mc.map Prod.snd) p))
      (fun s k hs => by
        obtain ⟨b1, b2, b3, b4⟩ := sdprop_body_pres sq step o.gamma s k
        exact ⟨b1.trans hs.1, b2.trans hs.2.1, b3.trans hs.2.2.1, b4.trans hs.2.2.2⟩)
      (dkeys p) _ ⟨rfl, rfl, rfl, rfl⟩
  unfold SDprop.update
  dsimp only
  cases hres : pyFor (SDprop.body sq
      (if o.bs then o.lr * sq (1 - o.gamma ^ (if o.bs then o.iter + 1 else o.iter))
       else o.lr) o.gamma)
      ⟨p, g, lazyInit (o.mc.map Prod.fst) p, lazyInit (o.mc.map Prod.snd) p⟩
      (dkeys p) with
  | ok s =>
    obtain ⟨h1, h2, h3, h4⟩ := hp _ _ hres
    dsimp only [resSt] at h1 h2 h3 h4
    refine ⟨h1, h2, ?_⟩
    exact congrArg some (by dsimp only; rw [h3, h4])
  | error s =>
    obtain ⟨h1, h2, h3, h4⟩ := hp _ _ hres
    dsimp only [resSt] at h1 h2 h3 h4
    refine ⟨h1, h2, ?_⟩
    exact congrArg some (by dsimp only; rw [h3, h4])

theorem adastand_update_pres (sq : ℚ → ℚ) (o : Adastand) (p g : TDict) :
    dkeys (o.update sq p g).params = dkeys p ∧ (o.update sq p g).grads = g ∧
    ((o.update sq p g).inst.mv).map (fun x => (dkeys x.1, dkeys x.2)) =
      some (dkeys (lazyInit (o.mv.map Prod.fst) p),
            dkeys (lazyInit (o.mv.map Prod.snd) p)) := by
  have hp : ∀ (lrt : ℚ) r, pyFor (Adastand.body sq lrt o.beta1 o.beta2 o.epsilon)
      ⟨p, g, lazyInit (o.mv.map Prod.fst) p, lazyInit (o.mv.map Prod.snd) p⟩
      (dkeys p) = r →
      dkeys (resSt r).params = dkeys p ∧ (resSt r).grads = g ∧
      dkeys (resSt r).m = dkeys (lazyInit (o.mv.map Prod.fst) p) ∧
      dkeys (resSt r).v = dkeys (lazyInit (o.mv.map Prod.snd) p) := by
    intro lrt r hr
    rw [← hr]
    exact pyFor_pres _
      (fun s : AdamSt => dkeys s.params = dkeys p ∧ s.grads = g ∧
        dkeys s.m = dkeys (lazyInit (o.mv.map Prod.fst) p) ∧
        dkeys s.v = dkeys (lazyInit (o.mv.map Prod.snd) p))
      (fun s k hs => by
        obtain ⟨b1, b2, b3, b4⟩ := adastand_body_pres sq lrt o.beta1 o.beta2 o.epsilon s k
        exact ⟨b1.trans hs.1, b2.trans hs.2.1, b3.trans hs.2.2.1, b4.trans hs.2.2.2⟩)
      (dkeys p) _ ⟨rfl, rfl, rfl, rfl⟩
  unfold Adastand.update
  dsimp only
  cases hres : pyFor (Adastand.body sq
      (o.lr * sq (1 - o.beta2 ^ (o.iter + 1)) / (1 - o.beta1 ^ (o.iter + 1)))
      o.beta1 o.beta2 o.epsilon)
      ⟨p, g, lazyInit (o.mv.map Prod.fst) p, lazyInit (o.mv.map Prod.snd) p⟩
      (dkeys p) with
  | ok s =>
    obtain ⟨h1, h2, h3, h4⟩ := hp _ _ hres
    dsimp only [resSt] at h1 h2 h3 h4
    refine ⟨h1, h2, ?_⟩
    exact congrArg some (by dsimp only; rw [h3, h4])
  | error s =>
    obtain ⟨h1, h2, h3, h4⟩ := hp _ _ hres
    dsimp only [resSt] at h1 h2 h3 h4
    refine ⟨h1, h2, ?_⟩
    exact congrArg some (by dsimp only; rw [h3, h4])

/-- **C6.** For every variant and every call (any instance state, any inputs,
whether or not the call raises), `update` only replaces values of existing keys
in `params` — the key list of `params` is unchanged, so no key is added or
removed — and `grads` is left completely unmodified (the embedding threads
`grads` through the whole per-key loop; the source never writes to it). -/
theorem update_frame_effect (sq : ℚ → ℚ) (p g : TDict)
    (oS : SGD) (oM : Momentum) (oN : Nesterov) (oG : AdaGrad) (oR : RMSprop)
    (oA : Adam) (oD : SDprop) (oT : Adastand) :
    dkeys (oS.update p g).params = dkeys p ∧ (oS.update p g).grads = g ∧
    dkeys (oM.update p g).params = dkeys p ∧ (oM.update p g).grads = g ∧
    dkeys (oN.update p g).params = dkeys p ∧ (oN.update p g).grads = g ∧
    dkeys (oG.update sq p g).params = dkeys p ∧ (oG.update sq p g).grads = g ∧
    dkeys (oR.update sq p g).params = dkeys p ∧ (oR.update sq p g).grads = g ∧
    dkeys (oA.update sq p g).params = dkeys p ∧ (oA.update sq p g).grads = g ∧
    dkeys (oD.update sq p g).params = dkeys p ∧ (oD.update sq p g).grads = g ∧
    dkeys (oT.update sq p g).params = dkeys p ∧ (oT.update sq p g).grads = g := by
  obtain ⟨s1, s2⟩ := sgd_update_pres oS p g
  obtain ⟨m1, m2, _⟩ := momentum_update_pres oM p g
  obtain ⟨n1, n2, _⟩ := nesterov_update_pres oN p g
  obtain ⟨g1, g2, _⟩ := adagrad_update_pres sq oG p g
  obtain ⟨r1, r2, _⟩ := rmsprop_update_pres sq oR p g
  obtain ⟨a1, a2, _⟩ := adam_update_pres sq oA p g
  obtain ⟨d1, d2, _⟩ := sdprop_update_pres sq oD p g
  obtain ⟨t1, t2, _⟩ := adastand_update_pres sq oT p g
  exact ⟨s1, s2, m1, m2, n1, n2, g1, g2, r1, r2, a1, a2, d1, d2, t1, t2⟩

/-! ### C5: determinism -/

/-- **C5.** For every variant, `update` is deterministic: two instances built
with identical configuration, applied to identical initial parameters and the
same sequence of gradient dicts (and the same model `sq` of `np.sqrt`),
produce identical parameter trajectories, including identical final states. -/
theorem deterministic_trajectories (sq : ℚ → ℚ)
    (lr mom dr b1 b2 gam eps : ℚ) (bs : Bool) (p : TDict) (gs : List TDict)
    (oS oS' : SGD) (hS : oS = SGD.new lr) (hS' : oS' = SGD.new lr)
    (oM oM' : Momentum) (hM : oM = Momentum.new lr mom) (hM' : oM' = Momentum.new lr mom)
    (oN oN' : Nesterov) (hN : oN = Nesterov.new lr mom) (hN' : oN' = Nesterov.new lr mom)
    (oG oG' : AdaGrad) (hG : oG = AdaGrad.new lr) (hG' : oG' = AdaGrad.new lr)
    (oR oR' : RMSprop) (hR : oR = RMSprop.new lr dr) (hR' : oR' = RMSprop.new lr dr)
    (oA oA' : Adam) (hA : oA = Adam.new lr b1 b2) (hA' : oA' = Adam.new lr b1 b2)
    (oD oD' : SDprop) (hD : oD = SDprop.new lr gam bs) (hD' : oD' = SDprop.new lr gam bs)
    (oT oT' : Adastand) (hT : oT = Adastand.new lr b1 b2 eps)
    (hT' : oT' = Adastand.new lr b1 b2 eps) :
    SGD.run oS p gs = SGD.run oS' p gs ∧
    Momentum.run oM p gs = Momentum.run oM' p gs ∧
    Nesterov.run oN p gs = Nesterov.run oN' p gs ∧
    AdaGrad.run sq oG p gs = AdaGrad.run sq oG' p gs ∧
    RMSprop.run sq oR p gs = RMSprop.run sq oR' p gs ∧
    Adam.run sq oA p gs = Adam.run sq oA' p gs ∧
    SDprop.run sq oD p gs = SDprop.run sq oD' p gs ∧
    Adastand.run sq oT p gs = Adastand.run sq oT' p gs := by
  subst hS hS' hM hM' hN hN' hG hG' hR hR' hA hA' hD hD' hT hT'
  exact ⟨rfl, rfl, rfl, rfl, rfl, rfl, rfl, rfl⟩

/-- Witness for `deterministic_trajectories` at a concrete input: freshly
constructed instances with all hyperparameters `1/2`, one parameter key, a
two-step gradient sequence, `sq = id`. -/
theorem deterministic_trajectories_witness :
    SGD.run (SGD.new (1/2)) [("a", [1])] [[("a", [1])], [("a", [2])]] =
      SGD.run (SGD.new (1/2)) [("a", [1])] [[("a", [1])], [("a", [2])]] ∧
    Momentum.run (Momentum.new (1/2) (1/2)) [("a", [1])] [[("a", [1])], [("a", [2])]] =
      Momentum.run (Momentum.new (1/2) (1/2)) [("a", [1])] [[("a", [1])], [("a", [2])]] ∧
    Nesterov.run (Nesterov.new (1/2) (1/2)) [("a", [1])] [[("a", [1])], [("a", [2])]] =
      Nesterov.run (Nesterov.new (1/2) (1/2)) [("a", [1])] [[("a", [1])], [("a", [2])]] ∧
    AdaGrad.run id (AdaGrad.new (1/2)) [("a", [1])] [[("a", [1])], [("a", [2])]] =
      AdaGrad.run id (AdaGrad.new (1/2)) [("a", [1])] [[("a", [1])], [("a", [2])]] ∧
    RMSprop.run id (RMSprop.new (1/2) (1/2)) [("a", [1])] [[("a", [1])], [("a", [2])]] =
      RMSprop.run id (RMSprop.new (1/2) (1/2)) [("a", [1])] [[("a", [1])], [("a", [2])]] ∧
    Adam.run id (Adam.new (1/2) (1/2) (1/2)) [("a", [1])] [[("a", [1])], [("a", [2])]] =
      Adam.run id (Adam.new (1/2) (1/2) (1/2)) [("a", [1])] [[("a", [1])], [("a", [2])]] ∧
    SDprop.run id (SDprop.new (1/2) (1/2) true) [("a", [1])] [[("a", [1])], [("a", [2])]] =
      SDprop.run id (SDprop.new (1/2) (1/2) true) [("a", [1])] [[("a", [1])], [("a", [2])]] ∧
    Adastand.run id (Adastand.new (1/2) (1/2) (1/2) (1/2)) [("a", [1])]
        [[("a", [1])], [("a", [2])]] =
      Adastand.run id (Adastand.new (1/2) (1/2) (1/2) (1/2)) [("a", [1])]
        [[("a", [1])], [("a", [2])]] :=
  deterministic_trajectories id (1/2) (1/2) (1/2) (1/2) (1/2) (1/2) (1/2) true
    [("a", [1])] [[("a", [1])], [("a", [2])]]
    _ _ rfl rfl _ _ rfl rfl _ _ rfl rfl _ _ rfl rfl _ _ rfl rfl _ _ rfl rfl
    _ _ rfl rfl _ _ rfl rfl

/-! ### C9: lazy state initialization; in-place reuse fails for Momentum -/

/-- **C9 counterexample.** The claim says that after lazy initialization "no
new state tensors are allocated — the existing ones are reused and mutated in
place".  For Momentum this is false: with the materialized velocity for a key
being the zeros array of allocation id 0 and gradient `[1]`, the next call
executes `self.v[key] = self.momentum*self.v[key] - self.lr*grads[key]` — a
*plain* assignment — so the slot afterwards holds a freshly allocated array
(id 1, the allocator's next), not the id-0 array mutated in place: a new
state tensor is allocated on a subsequent `update` call. -/
theorem momentum_rebinds_velocity_to_fresh_array :
    (Momentum.vStep (1/100) (9/10) ⟨0, [0]⟩ [1] 1).aid = 1 ∧
    ¬ (Momentum.vStep (1/100) (9/10) ⟨0, [0]⟩ [1] 1).aid = 0 :=
  ⟨rfl, by decide⟩

/-- **C9 (amended).** For every stateful variant the accumulator state is
unset (`None`) at construction and is materialized on the first `update` call
as one all-zeros tensor of the corresponding parameter's shape per key of
`params`; a call with already-materialized state passes the existing dicts
through unchanged, and after any call the stored state dicts have exactly the
keys they started from — no call ever adds or removes a state tensor slot.
"Reused and mutated in place", however, holds only for Nesterov, AdaGrad,
RMSprop, Adam, SDprop and Adastand, whose state updates are augmented
assignments writing the existing arrays (every state tensor keeps its
allocation identity); Momentum's
`self.v[key] = self.momentum*self.v[key] - self.lr*grads[key]` is a plain
assignment that rebinds the velocity slot to a freshly allocated array on
every call — while computing exactly the velocity values of
`Momentum.body`'s recurrence (the linking conjunct). -/
theorem lazy_state_initialization_amended (sq : ℚ → ℚ)
    (lr mom dr b1 b2 gam eps pv gv vv : ℚ) (bs : Bool) (p g : TDict)
    (t gt : Tensor) (k : String)
    (oM : Momentum) (oN : Nesterov) (oG : AdaGrad) (oR : RMSprop)
    (oA : Adam) (oD : SDprop) (oT : Adastand)
    (a : NpArray) (fresh : ℕ)
    (hkt : dget p k = some t) (hfr : fresh ≠ a.aid) :
    (Momentum.new lr mom).v = none ∧
    (Nesterov.new lr mom).v = none ∧
    (AdaGrad.new lr).h = none ∧
    (RMSprop.new lr dr).h = none ∧
    (Adam.new lr b1 b2).mv = none ∧
    (SDprop.new lr gam bs).mc = none ∧
    (Adastand.new lr b1 b2 eps).mv = none ∧
    lazyInit none p = zerosDict p ∧
    dkeys (zerosDict p) = dkeys p ∧
    dget (zerosDict p) k = some (List.replicate t.length 0) ∧
    lazyInit (some g) p = g ∧
    ((oM.update p g).inst.v).map dkeys = some (dkeys (lazyInit oM.v p)) ∧
    ((oN.update p g).inst.v).map dkeys = some (dkeys (lazyInit oN.v p)) ∧
    ((oG.update sq p g).inst.h).map dkeys = some (dkeys (lazyInit oG.h p)) ∧
    ((oR.update sq p g).inst.h).map dkeys = some (dkeys (lazyInit oR.h p)) ∧
    ((oA.update sq p g).inst.mv).map (fun x => (dkeys x.1, dkeys x.2)) =
      some (dkeys (lazyInit (oA.mv.map Prod.fst) p),
            dkeys (lazyInit (oA.mv.map Prod.snd) p)) ∧
    ((oD.update sq p g).inst.mc).map (fun x => (dkeys x.1, dkeys x.2)) =
      some (dkeys (lazyInit (oD.mc.map Prod.fst) p),
            dkeys (lazyInit (oD.mc.map Prod.snd) p)) ∧
    ((oT.update sq p g).inst.mv).map (fun x => (dkeys x.1, dkeys x.2)) =
      some (dkeys (lazyInit (oT.mv.map Prod.fst) p),
            dkeys (lazyInit (oT.mv.map Prod.snd) p)) ∧
    (Momentum.vStep lr mom a gt fresh).aid = fresh ∧
    (Momentum.vStep lr mom a gt fresh).aid ≠ a.aid ∧
    Momentum.body lr mom ⟨[(k, [pv])], [(k, [gv])], [(k, [vv])]⟩ k =
      .ok ⟨[(k, [pv + (mom * vv - lr * gv)])], [(k, [gv])],
           [(k, (Momentum.vStep lr mom ⟨a.aid, [vv]⟩ [gv] fresh).data)]⟩ ∧
    (Nesterov.vStep lr mom a gt).aid = a.aid ∧
    (AdaGrad.hStep a gt).aid = a.aid ∧
    (RMSprop.hStep dr a gt).aid = a.aid ∧
    (Adam.mStep b1 a gt).aid = a.aid ∧
    (Adam.vStep b2 a gt).aid = a.aid ∧
    (SDprop.cStep gam a gt a.data).aid = a.aid ∧
    (SDprop.mStep gam a gt).aid = a.aid ∧
    (Adastand.vStep b2 a gt a.data).aid = a.aid ∧
    (Adastand.mStep b1 a gt).aid = a.aid := by
  have hz : dget (zerosDict p) k = some (List.replicate t.length 0) := by
    rw [dget_zerosDict, hkt, Option.map_some', zerosLike_replicate]
  refine ⟨rfl, rfl, rfl, rfl, rfl, rfl, rfl, rfl, dkeys_zerosDict p, hz, rfl,
    (momentum_update_pres oM p g).2.2, (nesterov_update_pres oN p g).2.2,
    (adagrad_update_pres sq oG p g).2.2, (rmsprop_update_pres sq oR p g).2.2,
    (adam_update_pres sq oA p g).2.2, (sdprop_update_pres sq oD p g).2.2,
    (adastand_update_pres sq oT p g).2.2, rfl, hfr, ?_,
    rfl, rfl, rfl, rfl, rfl, rfl, rfl, rfl, rfl⟩
  simp [Momentum.body, Momentum.vStep, dget, dset]

/-- Witness for `lazy_state_initialization_amended` at a concrete input:
`p = [("a", [5, 6])]`, `g = [("a", [7, 8])]`, fresh instances, all
hyperparameters `1/2`, single-element state array of allocation id 0 with
gradient `[1]`, allocator next id 1, body-link scalars `pv=1, gv=2, vv=3`. -/
theorem lazy_state_initialization_amended_witness :
    (Momentum.new (1/2) (1/2)).v = none ∧
    (Nesterov.new (1/2) (1/2)).v = none ∧
    (AdaGrad.new (1/2)).h = none ∧
    (RMSprop.new (1/2) (1/2)).h = none ∧
    (Adam.new (1/2) (1/2) (1/2)).mv = none ∧
    (SDprop.new (1/2) (1/2) true).mc = none ∧
    (Adastand.new (1/2) (1/2) (1/2) (1/2)).mv = none ∧
    lazyInit none [("a", [5, 6])] = zerosDict [("a", [5, 6])] ∧
    dkeys (zerosDict [("a", [5, 6])]) = dkeys [("a", [5, 6])] ∧
    dget (zerosDict [("a", [5, 6])]) "a" =
      some (List.replicate (List.length [(5 : ℚ), 6]) 0) ∧
    lazyInit (some [("a", [7, 8])]) [("a", [5, 6])] = [("a", [7, 8])] ∧
    (((Momentum.new (1/2) (1/2)).update [("a", [5, 6])] [("a", [7, 8])]).inst.v).map dkeys
      = some (dkeys (lazyInit (Momentum.new (1/2) (1/2)).v [("a", [5, 6])])) ∧
    (((Nesterov.new (1/2) (1/2)).update [("a", [5, 6])] [("a", [7, 8])]).inst.v).map dkeys
      = some (dkeys (lazyInit (Nesterov.new (1/2) (1/2)).v [("a", [5, 6])])) ∧
    (((AdaGrad.new (1/2)).update id [("a", [5, 6])] [("a", [7, 8])]).inst.h).map dkeys
      = some (dkeys (lazyInit (AdaGrad.new (1/2)).h [("a", [5, 6])])) ∧
    (((RMSprop.new (1/2) (1/2)).update id [("a", [5, 6])] [("a", [7, 8])]).inst.h).map dkeys
      = some (dkeys (lazyInit (RMSprop.new (1/2) (1/2)).h [("a", [5, 6])])) ∧
    (((Adam.new (1/2) (1/2) (1/2)).update id [("a", [5, 6])] [("a", [7, 8])]).inst.mv).map
        (fun x => (dkeys x.1, dkeys x.2)) =
      some (dkeys (lazyInit ((Adam.new (1/2) (1/2) (1/2)).mv.map Prod.fst) [("a", [5, 6])]),
            dkeys (lazyInit ((Adam.new (1/2) (1/2) (1/2)).mv.map Prod.snd)
              [("a", [5, 6])])) ∧
    (((SDprop.new (1/2) (1/2) true).update id [("a", [5, 6])] [("a", [7, 8])]).inst.mc).map
        (fun x => (dkeys x.1, dkeys x.2)) =
      some (dkeys (lazyInit ((SDprop.new (1/2) (1/2) true).mc.map Prod.fst)
              [("a", [5, 6])]),
            dkeys (lazyInit ((SDprop.new (1/2) (1/2) true).mc.map Prod.snd)
              [("a", [5, 6])])) ∧
    (((Adastand.new (1/2) (1/2) (1/2) (1/2)).update id [("a", [5, 6])]
        [("a", [7, 8])]).inst.mv).map (fun x => (dkeys x.1, dkeys x.2)) =
      some (dkeys (lazyInit ((Adastand.new (1/2) (1/2) (1/2) (1/2)).mv.map Prod.fst)
              [("a", [5, 6])]),
            dkeys (lazyInit ((Adastand.new (1/2) (1/2) (1/2) (1/2)).mv.map Prod.snd)
              [("a", [5, 6])])) ∧
    (Momentum.vStep (1/2) (1/2) ⟨0, [0]⟩ [1] 1).aid = 1 ∧
    (Momentum.vStep (1/2) (1/2) ⟨0, [0]⟩ [1] 1).aid ≠ 0 ∧
    Momentum.body (1/2) (1/2) ⟨[("a", [1])], [("a", [2])], [("a", [3])]⟩ "a" =
      .ok ⟨[("a", [1 + (1/2 * 3 - 1/2 * 2)])], [("a", [2])],
           [("a", (Momentum.vStep (1/2) (1/2) ⟨0, [3]⟩ [2] 1).data)]⟩ ∧
    (Nesterov.vStep (1/2) (1/2) ⟨0, [0]⟩ [1]).aid = 0 ∧
    (AdaGrad.hStep ⟨0, [0]⟩ [1]).aid = 0 ∧
    (RMSprop.hStep (1/2) ⟨0, [0]⟩ [1]).aid = 0 ∧
    (Adam.mStep (1/2) ⟨0, [0]⟩ [1]).aid = 0 ∧
    (Adam.vStep (1/2) ⟨0, [0]⟩ [1]).aid = 0 ∧
    (SDprop.cStep (1/2) ⟨0, [0]⟩ [1] [0]).aid = 0 ∧
    (SDprop.mStep (1/2) ⟨0, [0]⟩ [1]).aid = 0 ∧
    (Adastand.vStep (1/2) ⟨0, [0]⟩ [1] [0]).aid = 0 ∧
    (Adastand.mStep (1/2) ⟨0, [0]⟩ [1]).aid = 0 :=
  lazy_state_initialization_amended id (1/2) (1/2) (1/2) (1/2) (1/2) (1/2) (1/2)
    1 2 3 true [("a", [5, 6])] [("a", [7, 8])] [5, 6] [1] "a"
    (Momentum.new (1/2) (1/2)) (Nesterov.new (1/2) (1/2)) (AdaGrad.new (1/2))
    (RMSprop.new (1/2) (1/2)) (Adam.new (1/2) (1/2) (1/2)) (SDprop.new (1/2) (1/2) true)
    (Adastand.new (1/2) (1/2) (1/2) (1/2)) ⟨0, [0]⟩ 1 rfl (by decide)

/-! ### C7: the iteration counter -/

theorem adam_update_iter (sq : ℚ → ℚ) (o : Adam) (p g : TDict) :
    (o.update sq p g).inst.iter = o.iter + 1 := by
  unfold Adam.update
  dsimp only
  cases pyFor (Adam.body sq
      (o.lr * sq (1 - o.beta2 ^ (o.iter + 1)) / (1 - o.beta1 ^ (o.iter + 1)))
      o.beta1 o.beta2)
      ⟨p, g, lazyInit (o.mv.map Prod.fst) p, lazyInit (o.mv.map Prod.snd) p⟩
      (dkeys p) <;> rfl

theorem adastand_update_iter (sq : ℚ → ℚ) (o : Adastand) (p g : TDict) :
    (o.update sq p g).inst.iter = o.iter + 1 := by
  unfold Adastand.update
  dsimp only
  cases pyFor (Adastand.body sq
      (o.lr * sq (1 - o.beta2 ^ (o.iter + 1)) / (1 - o.beta1 ^ (o.iter + 1)))
      o.beta1 o.beta2 o.epsilon)
      ⟨p, g, lazyInit (o.mv.map Prod.fst) p, lazyInit (o.mv.map Prod.snd) p⟩
      (dkeys p) <;> rfl

theorem sdprop_update_iter (sq : ℚ → ℚ) (o : SDprop) (p g : TDict) :
    (o.update sq p g).inst.iter = if o.bs then o.iter + 1 else o.iter := by
  unfold SDprop.update
  dsimp only
  cases pyFor (SDprop.body sq
      (if o.bs then o.lr * sq (1 - o.gamma ^ (if o.bs then o.iter + 1 else o.iter))
       else o.lr) o.gamma)
      ⟨p, g, lazyInit (o.mc.map Prod.fst) p, lazyInit (o.mc.map Prod.snd) p⟩
      (dkeys p) <;> rfl

theorem sdprop_update_bs (sq : ℚ → ℚ) (o : SDprop) (p g : TDict) :
    (o.update sq p g).inst.bs = o.bs := by
  unfold SDprop.update
  dsimp only
  cases pyFor (SDprop.body sq
      (if o.bs then o.lr * sq (1 - o.gamma ^ (if o.bs then o.iter + 1 else o.iter))
       else o.lr) o.gamma)
      ⟨p, g, lazyInit (o.mc.map Prod.fst) p, lazyInit (o.mc.map Prod.snd) p⟩
      (dkeys p) <;> rfl

theorem adam_run_iter (sq : ℚ → ℚ) (o : Adam) (p : TDict) (gs : List TDict) :
    (Adam.run sq o p gs).1.iter = o.iter + gs.length := by
  induction gs generalizing o p with
  | nil => rfl
  | cons g gs ih =>
    simp only [Adam.run]
    rw [ih, adam_update_iter]
    simp only [List.length_cons]
    omega

theorem adastand_run_iter (sq : ℚ → ℚ) (o : Adastand) (p : TDict) (gs : List TDict) :
    (Adastand.run sq o p gs).1.iter = o.iter + gs.length := by
  induction gs generalizing o p with
  | nil => rfl
  | cons g gs ih =>
    simp only [Adastand.run]
    rw [ih, adastand_update_iter]
    simp only [List.length_cons]
    omega

theorem sdprop_run_iter (sq : ℚ → ℚ) (o : SDprop) (p : TDict) (gs : List TDict) :
    (SDprop.run sq o p gs).1.iter = o.iter + (if o.bs then gs.length else 0) := by
  induction gs generalizing o p with
  | nil => simp [SDprop.run]
  | cons g gs ih =>
    simp only [SDprop.run]
    rw [ih, sdprop_update_iter, sdprop_update_bs]
    by_cases hbs : o.bs
    · simp [hbs]
      omega
    · simp [hbs]

/-- **C7 (amended).** Adam and Adastand hold a single instance-wide counter
starting at 0 and incremented exactly once per `update` call, so after `n`
calls it equals `n` regardless of the number of keys and of configuration.
SDprop's counter, however, is incremented only when `bias_correction` is
true: with `bias_correction = False` it stays 0 forever, so the increment is
*not* configuration-independent for SDprop. -/
theorem iteration_counter (sq : ℚ → ℚ) (lr b1 b2 gam eps : ℚ) (bs : Bool)
    (p : TDict) (gs : List TDict) :
    (Adam.new lr b1 b2).iter = 0 ∧
    (Adastand.new lr b1 b2 eps).iter = 0 ∧
    (SDprop.new lr gam bs).iter = 0 ∧
    (Adam.run sq (Adam.new lr b1 b2) p gs).1.iter = gs.length ∧
    (Adastand.run sq (Adastand.new lr b1 b2 eps) p gs).1.iter = gs.length ∧
    (SDprop.run sq (SDprop.new lr gam bs) p gs).1.iter =
      (if bs then gs.length else 0) := by
  refine ⟨rfl, rfl, rfl, ?_, ?_, ?_⟩
  · rw [adam_run_iter]; simp [Adam.new]
  · rw [adastand_run_iter]; simp [Adastand.new]
  · rw [sdprop_run_iter]; simp [SDprop.new]

/-- **C7 counterexample.** The claim asserts the counter is incremented once
per call "regardless of configuration"; but an `SDprop` constructed with
`bias_correction=False` makes one `update` call and its counter is still 0,
not 1. -/
theorem sdprop_counter_not_incremented_without_bias_correction :
    ((SDprop.new (1/1000) (99/100) false).update id [("a", [1])] [("a", [1])]).inst.iter
      = 0 ∧
    ¬ ((SDprop.new (1/1000) (99/100) false).update id
        [("a", [1])] [("a", [1])]).inst.iter = 1 := by
  have h := sdprop_update_iter id (SDprop.new (1/1000) (99/100) false)
    [("a", [1])] [("a", [1])]
  rw [h]
  exact ⟨rfl, by simp [SDprop.new]⟩

/-! ### C1: no error taxonomy, no atomicity -/

/-- **C1 counterexample.** A call whose gradient key set differs from the
parameter key set (`grads` has the extra key `"b"`) does *not* raise any
failure: the update returns normally (`ok = true`) and `params` has already
been mutated (`1` became `1 - (1/100)*1 = 99/100`), contradicting both the
required `KeyMismatch` and the before-any-mutation atomicity. -/
theorem keyset_mismatch_not_detected :
    ((SGD.new (1/100)).update [("a", [1])] [("a", [1]), ("b", [2])]).ok = true ∧
    ((SGD.new (1/100)).update [("a", [1])] [("a", [1]), ("b", [2])]).params
      = [("a", [99/100])] := by
  refine ⟨rfl, ?_⟩
  norm_num [SGD.update, SGD.new, SGD.body, pyFor, dget, dset, dkeys]

/-- **C1 (amended).** No variant defines or raises `KeyMismatch`,
`ShapeMismatch` or `StateMismatch`; nothing is validated.  A `grads` key set
that strictly contains the `params` key set is silently accepted and the
update proceeds normally on all `params` keys; a `grads` key that is missing
for some `params` key surfaces only as a plain `KeyError` when the per-key
loop reaches that key, *after* every earlier key's parameter has already been
mutated — so the failure is neither specific nor atomic (shown for `SGD`,
whose loop is the one shared shape; arbitrary scalars). -/
theorem no_validation_amended (lr p q g : ℚ) (u : Tensor) :
    ((SGD.new lr).update [("a", [p])] [("a", [g]), ("b", u)]).ok = true ∧
    ((SGD.new lr).update [("a", [p])] [("a", [g]), ("b", u)]).params
      = [("a", [p - lr * g])] ∧
    ((SGD.new lr).update [("a", [p]), ("b", [q])] [("a", [g])]).ok = false ∧
    ((SGD.new lr).update [("a", [p]), ("b", [q])] [("a", [g])]).params
      = [("a", [p - lr * g]), ("b", [q])] := by
  refine ⟨rfl, ?_, rfl, ?_⟩ <;>
    simp [SGD.update, SGD.new, SGD.body, pyFor, dget, dset, dkeys]

/-! ### C8: constructors accept any hyperparameters -/

/-- **C8 counterexample.** Constructing `SGD` with the out-of-domain learning
rate `lr = -1` raises nothing: the constructor stores `-1` and a subsequent
`update` happily uses it (`5 - (-1)*2 = 7`), so no `ConfigError` exists. -/
theorem negative_lr_accepted :
    (SGD.new (-1)).lr = -1 ∧
    ((SGD.new (-1)).update [("a", [5])] [("a", [2])]).ok = true ∧
    ((SGD.new (-1)).update [("a", [5])] [("a", [2])]).params = [("a", [7])] := by
  refine ⟨rfl, rfl, ?_⟩
  norm_num [SGD.update, SGD.new, SGD.body, pyFor, dget, dset, dkeys]

/-- **C8 (amended).** No constructor validates its hyperparameters: every
`__init__` merely stores the given values (any rational, any boolean), and the
stored value — however far outside its documented domain — is what the first
`update` call then uses.  There is no `ConfigError` at construction or later. -/
theorem constructors_store_unvalidated (lr mom dr b1 b2 gam eps : ℚ) (bs : Bool) :
    (SGD.new lr).lr = lr ∧
    (Momentum.new lr mom).lr = lr ∧
    (Momentum.new lr mom).momentum = mom ∧
    (Nesterov.new lr mom).lr = lr ∧
    (Nesterov.new lr mom).momentum = mom ∧
    (AdaGrad.new lr).lr = lr ∧
    (RMSprop.new lr dr).lr = lr ∧
    (RMSprop.new lr dr).decay_rate = dr ∧
    (Adam.new lr b1 b2).lr = lr ∧
    (Adam.new lr b1 b2).beta1 = b1 ∧
    (Adam.new lr b1 b2).beta2 = b2 ∧
    (SDprop.new lr gam bs).lr = lr ∧
    (SDprop.new lr gam bs).gamma = gam ∧
    (SDprop.new lr gam bs).bs = bs ∧
    (Adastand.new lr b1 b2 eps).lr = lr ∧
    (Adastand.new lr b1 b2 eps).beta1 = b1 ∧
    (Adastand.new lr b1 b2 eps).beta2 = b2 ∧
    (Adastand.new lr b1 b2 eps).epsilon = eps ∧
    ((SGD.new lr).update [("a", [0])] [("a", [1])]).ok = true ∧
    ((SGD.new lr).update [("a", [0])] [("a", [1])]).params = [("a", [-lr])] := by
  refine ⟨rfl, rfl, rfl, rfl, rfl, rfl, rfl, rfl, rfl, rfl, rfl, rfl, rfl, rfl,
    rfl, rfl, rfl, rfl, rfl, ?_⟩
  simp [SGD.update, SGD.new, SGD.body, pyFor, dget, dset, dkeys]

end DLOpt
